import Mathlib

/-!
# CEED (ceed-cpp): resource synchronisation and update checking

A shallow embedding of two routines of the CEED editor:

* `CEGUIManager::syncProjectToCEGUIInstance` and `CEGUIManager::cleanCEGUIResources`
  (`src/cegui/CEGUIManager.cpp`), modelled as functions on a manager state that
  logs every call issued to the CEGUI library;
* `Application::checkForUpdates` and `Application::onUpdateError`
  (`src/Application.cpp`), modelled as functions on an application state that
  holds the persistent settings and logs every observable action.

The CEGUI library, the Qt toolkit, the file system and the network are outside
the repository.  They enter the model as inputs (`CeguiEnv`, `UpdateEnv`).
-/

namespace CEED

/-! ## Part A: `CEGUIManager` -/

/-- A resource reference listed by a scheme (`CEGUI::Scheme::LoadableUIElement`):
the sync routine reads its `filename` and `resourceGroup`. -/
structure LoadableUIElement where
  filename : String
  resourceGroup : String
deriving DecidableEq, Repr

/-- The part of a `CEGUI::Scheme` object that the sync routine iterates over. -/
structure Scheme where
  xmlImagesets : List LoadableUIElement
  fonts : List LoadableUIElement
  lookNFeels : List LoadableUIElement
deriving DecidableEq, Repr

/-- Calls issued to the CEGUI library.  A scheme method carries the scheme file
whose `Scheme` object receives the call. -/
inductive Call where
  -- CEGUIManager::cleanCEGUIResources
  | destroyAllWindows
  | cleanDeadPool
  | fontDestroyAll
  | imageDestroyAll
  | schemeDestroyAll
  | eraseAllWidgetLooks
  | destroyAllAnimations
  | removeAllFalagardWindowMappings
  | removeAllWindowTypeAliases
  | removeAllFactories
  | addStandardWindowFactories
  | destroyAllTextures
  -- DefaultResourceProvider
  | setResourceGroupDirectory (resourceGroup : String) (directory : String)
  -- SchemeManager::createFromFile
  | schemeCreateFromFile (schemeFile : String)
  -- ImageManager::loadImageset
  | loadImageset (filename : String) (resourceGroup : String)
  | loadImageFileImagesets (schemeFile : String)
  -- FontManager::createFromFile
  | fontCreateFromFile (filename : String) (resourceGroup : String)
  -- WidgetLookManager::parseLookNFeelSpecificationFromFile
  | parseLookNFeelSpecificationFromFile (filename : String) (resourceGroup : String)
  | loadWindowRendererFactories (schemeFile : String)
  | loadWindowFactories (schemeFile : String)
  | loadFactoryAliases (schemeFile : String)
  | loadFalagardMappings (schemeFile : String)
deriving DecidableEq, Repr

/-- One entry met by the `QDirIterator` over the schemes directory, with the two
`QFileInfo` answers the loop asks for. -/
structure DirEntry where
  fileName : String
  isDir : Bool
  suffix : String
deriving DecidableEq, Repr

/-- The fields of `CEGUIProject` read by the sync routine.  `CEGUIProject.cpp` is
not among the sources, so the answer of `checkAllDirectories()` and the absolute
resource paths (`getAbsolutePathOf`) are data of the project; `schemesDirExists`
and `schemesDirEntries` are what the file system answers for the schemes path. -/
structure CEGUIProject where
  checkAllDirectories : Bool
  imagesetsPath : String
  fontsPath : String
  schemesPath : String
  looknfeelsPath : String
  layoutsPath : String
  xmlSchemasPath : String
  schemesDirExists : Bool
  schemesDirEntries : List DirEntry
deriving DecidableEq, Repr

/-- The surroundings of one run of the sync routine.
* `bootstrapSucceeds`: whether `ensureCEGUIInitialized`, when it has work to do,
  gets through OpenGL context creation and `bootstrapSystem`;
* `defaultResourceProvider`: whether the `dynamic_cast` of the system's resource
  provider to `DefaultResourceProvider` is non-null;
* `datafilesFilePath d`: `defaultBaseDirectory.filePath(d)`, the path of `d` in
  the directory `datafiles` of the current directory;
* `scheme f`: the `Scheme` object `createFromFile f` returns;
* `throws log c`: whether call `c`, issued after the calls `log`, throws a
  `std::exception`. -/
structure CeguiEnv where
  bootstrapSucceeds : Bool
  defaultResourceProvider : Bool
  datafilesFilePath : String → String
  scheme : String → Scheme
  throws : List Call → Call → Bool

/-- State of `CEGUIManager` together with the `SchemeManager` auto-load flag and
the log of calls issued to CEGUI so far. -/
structure CEGUIManager where
  currentProject : Option CEGUIProject
  initialized : Bool
  autoLoadResources : Bool
  calls : List Call
deriving DecidableEq, Repr

/-- The library calls of `cleanCEGUIResources`, in source order. -/
def purgeCalls : List Call :=
  [ .destroyAllWindows, .cleanDeadPool, .fontDestroyAll, .imageDestroyAll,
    .schemeDestroyAll, .eraseAllWidgetLooks, .destroyAllAnimations,
    .removeAllFalagardWindowMappings, .removeAllWindowTypeAliases,
    .removeAllFactories, .addStandardWindowFactories, .destroyAllTextures ]

/-- `CEGUIManager::cleanCEGUIResources`: nothing when CEGUI is not initialised,
otherwise destroy every resource. -/
def cleanCEGUIResources (m : CEGUIManager) : CEGUIManager :=
  if !m.initialized then m
  else { m with calls := m.calls ++ purgeCalls }

/-- The six `setResourceGroupDirectory` calls of `ensureCEGUIInitialized`: the
resource groups are put to the folders of the stock data files. -/
def defaultPathCalls (env : CeguiEnv) : List Call :=
  [ .setResourceGroupDirectory "imagesets" (env.datafilesFilePath "imagesets"),
    .setResourceGroupDirectory "fonts" (env.datafilesFilePath "fonts"),
    .setResourceGroupDirectory "schemes" (env.datafilesFilePath "schemes"),
    .setResourceGroupDirectory "looknfeels" (env.datafilesFilePath "looknfeel"),
    .setResourceGroupDirectory "layouts" (env.datafilesFilePath "layouts"),
    .setResourceGroupDirectory "xml_schemas" (env.datafilesFilePath "xml_schemas") ]

/-- `CEGUIManager::ensureCEGUIInitialized`: it returns at once when already
initialised, and returns without the flag when a bootstrap step fails (OpenGL
context, `bootstrapSystem`).  Otherwise it sets the default directory of the six
resource groups on the default resource provider and sets the flag.  The other
steps of the boot (logger, default resource group names, the schema group of
the XML parser, property delegates) issue none of the logged kinds of call. -/
def ensureCEGUIInitialized (env : CeguiEnv) (m : CEGUIManager) : CEGUIManager :=
  if m.initialized then m
  else if !env.bootstrapSucceeds then m
  else
    let m := if env.defaultResourceProvider
      then { m with calls := m.calls ++ defaultPathCalls env } else m
    { m with initialized := true }

/-- The six `setResourceGroupDirectory` calls of the sync routine. -/
def resourcePathCalls (p : CEGUIProject) : List Call :=
  [ .setResourceGroupDirectory "imagesets" p.imagesetsPath,
    .setResourceGroupDirectory "fonts" p.fontsPath,
    .setResourceGroupDirectory "schemes" p.schemesPath,
    .setResourceGroupDirectory "looknfeels" p.looknfeelsPath,
    .setResourceGroupDirectory "layouts" p.layoutsPath,
    .setResourceGroupDirectory "xml_schemas" p.xmlSchemasPath ]

/-- The `QDirIterator` loop: names of the entries that are not directories and
have suffix `scheme`, in iteration order. -/
def collectSchemeFiles : List DirEntry → List String
  | [] => []
  | e :: es =>
    if !e.isDir && e.suffix == "scheme" then e.fileName :: collectSchemeFiles es
    else collectSchemeFiles es

/-- One library call inside the `try` block.  The call is logged; when it throws,
the log so far is carried by the exception. -/
def issue (env : CeguiEnv) (c : Call) (log : List Call) : Except (List Call) (List Call) :=
  if env.throws log c then .error (log ++ [c]) else .ok (log ++ [c])

/-- One of the three `while (!it.isAtEnd())` loops: a call per listed element. -/
def loadElements (env : CeguiEnv) (mk : LoadableUIElement → Call) :
    List LoadableUIElement → List Call → Except (List Call) (List Call)
  | [], log => .ok log
  | e :: es, log =>
    match issue env (mk e) log with
    | .error l => .error l
    | .ok l => loadElements env mk es l

/-- Body of the `for (auto& schemeFile : schemeFiles)` loop. -/
def loadScheme (env : CeguiEnv) (schemeFile : String) (log : List Call) :
    Except (List Call) (List Call) := do
  let log ← issue env (.schemeCreateFromFile schemeFile) log
  let scheme := env.scheme schemeFile
  let log ← loadElements env (fun e => .loadImageset e.filename e.resourceGroup)
    scheme.xmlImagesets log
  let log ← issue env (.loadImageFileImagesets schemeFile) log
  let log ← loadElements env (fun e => .fontCreateFromFile e.filename e.resourceGroup)
    scheme.fonts log
  let log ← loadElements env
    (fun e => .parseLookNFeelSpecificationFromFile e.filename e.resourceGroup)
    scheme.lookNFeels log
  let log ← issue env (.loadWindowRendererFactories schemeFile) log
  let log ← issue env (.loadWindowFactories schemeFile) log
  let log ← issue env (.loadFactoryAliases schemeFile) log
  issue env (.loadFalagardMappings schemeFile) log

/-- The `for` loop over the scheme files (the contents of the `try` block). -/
def loadSchemes (env : CeguiEnv) : List String → List Call → Except (List Call) (List Call)
  | [], log => .ok log
  | f :: fs, log =>
    match loadScheme env f log with
    | .error l => .error l
    | .ok l => loadSchemes env fs l

/-- `CEGUIManager::syncProjectToCEGUIInstance`.  The result is the returned
`bool` and the state afterwards.  Message boxes, the progress dialog and the
OpenGL context switches do not touch the modelled state and are left out.
Exceptions are followed inside the `try` block only: a call that throws outside
of it would leave the routine without a return value. -/
def syncProjectToCEGUIInstance (env : CeguiEnv) (m : CEGUIManager) : Bool × CEGUIManager :=
  match m.currentProject with
  | none => (true, cleanCEGUIResources m)
  | some project =>
    if !project.checkAllDirectories then (false, m)
    else
      let m := ensureCEGUIInitialized env m
      if !project.schemesDirExists then (false, m)
      else
        let schemeFiles := collectSchemeFiles project.schemesDirEntries
        -- Destroy all previous resources (if any)
        let m := cleanCEGUIResources m
        let m := if env.defaultResourceProvider
          then { m with calls := m.calls ++ resourcePathCalls project } else m
        -- setAutoLoadResources(false)
        let m := { m with autoLoadResources := false }
        match loadSchemes env schemeFiles m.calls with
        | .ok log =>
          (true, { m with calls := log, autoLoadResources := true })
        | .error log =>
          let m := cleanCEGUIResources { m with calls := log }
          (false, { m with autoLoadResources := true })

/-! ### The order of calls as the specification words it -/

/-- The calls for one scheme file in the order the specification lists them:
create the scheme, XML imagesets, image-file imagesets, fonts, look-and-feels,
window renderer factories, window factories, factory aliases, falagard mappings. -/
def schemeCalls (env : CeguiEnv) (f : String) : List Call :=
  [Call.schemeCreateFromFile f]
    ++ (env.scheme f).xmlImagesets.map (fun e => Call.loadImageset e.filename e.resourceGroup)
    ++ [Call.loadImageFileImagesets f]
    ++ (env.scheme f).fonts.map (fun e => Call.fontCreateFromFile e.filename e.resourceGroup)
    ++ (env.scheme f).lookNFeels.map
        (fun e => Call.parseLookNFeelSpecificationFromFile e.filename e.resourceGroup)
    ++ [Call.loadWindowRendererFactories f, Call.loadWindowFactories f,
        Call.loadFactoryAliases f, Call.loadFalagardMappings f]

/-- The calls for a list of scheme files, one scheme after the other. -/
def allSchemeCalls (env : CeguiEnv) : List String → List Call
  | [] => []
  | f :: fs => schemeCalls env f ++ allSchemeCalls env fs

/-- Sequential execution of a fixed list of calls that stops at the first call
that throws. -/
def runCalls (env : CeguiEnv) : List Call → List Call → Except (List Call) (List Call)
  | [], log => .ok log
  | c :: cs, log =>
    match issue env c log with
    | .error l => .error l
    | .ok l => runCalls env cs l

/-- No load step fails: no call `c` of `cs`, issued after `log` and the calls `p`
that precede it in `cs`, throws. -/
def NoLoadFailure (env : CeguiEnv) (log : List Call) (cs : List Call) : Prop :=
  ∀ p c t, cs = p ++ c :: t → env.throws (log ++ p) c = false

/-- Some load step raises: a call `c` of `cs` throws when issued after `log` and
the calls `p` that precede it in `cs`. -/
def SomeLoadFailure (env : CeguiEnv) (log : List Call) (cs : List Call) : Prop :=
  ∃ p c t, cs = p ++ c :: t ∧ env.throws (log ++ p) c = true

/-- The call log at the entry of the `try` block of a run on project `p`: the
log after the boot (if any) and the purge, and the project paths after it. -/
def logAtTry (env : CeguiEnv) (m : CEGUIManager) (p : CEGUIProject) : List Call :=
  (cleanCEGUIResources (ensureCEGUIInitialized env m)).calls
    ++ (if env.defaultResourceProvider then resourcePathCalls p else [])

/-- The calls issued during one run of the sync routine: the log after the run
without the log the run started from. -/
def runLog (env : CeguiEnv) (m : CEGUIManager) : List Call :=
  (syncProjectToCEGUIInstance env m).2.calls.drop m.calls.length

/-- All elements the scheme files `fs` list under `sel` (XML imagesets, fonts or
look-and-feels), one scheme after the other, repetitions kept. -/
def listed (env : CeguiEnv) (sel : Scheme → List LoadableUIElement) : List String →
    List LoadableUIElement
  | [] => []
  | f :: fs => sel (env.scheme f) ++ listed env sel fs

/-! ### Sample data -/

/-- A project whose schemes directory holds two scheme files, a sub-directory
named like a scheme file, and a text file. -/
def sampleProject : CEGUIProject :=
  { checkAllDirectories := true
    imagesetsPath := "/proj/imagesets"
    fontsPath := "/proj/fonts"
    schemesPath := "/proj/schemes"
    looknfeelsPath := "/proj/looknfeel"
    layoutsPath := "/proj/layouts"
    xmlSchemasPath := "/proj/xml_schemas"
    schemesDirExists := true
    schemesDirEntries :=
      [ ⟨"TaharezLook.scheme", false, "scheme"⟩, ⟨"old.scheme", true, "scheme"⟩,
        ⟨"VanillaSkin.scheme", false, "scheme"⟩, ⟨"notes.txt", false, "txt"⟩ ] }

/-- Two schemes that both list the font `DejaVuSans-10.font`. -/
def sampleScheme (f : String) : Scheme :=
  if f = "TaharezLook.scheme" then
    { xmlImagesets := [⟨"TaharezLook.imageset", ""⟩]
      fonts := [⟨"DejaVuSans-10.font", ""⟩]
      lookNFeels := [⟨"TaharezLook.looknfeel", ""⟩] }
  else
    { xmlImagesets := [⟨"Vanilla.imageset", ""⟩]
      fonts := [⟨"DejaVuSans-10.font", ""⟩]
      lookNFeels := [⟨"Vanilla.looknfeel", ""⟩] }

/-- CEGUI boots, uses the default resource provider, and no call throws. -/
def sampleEnv : CeguiEnv :=
  { bootstrapSucceeds := true
    defaultResourceProvider := true
    datafilesFilePath := fun d => "/opt/ceed/datafiles/" ++ d
    scheme := sampleScheme
    throws := fun _ _ => false }

/-- As `sampleEnv`, but loading the imageset of the second scheme throws. -/
def failingEnv : CeguiEnv :=
  { sampleEnv with
    throws := fun _ c => decide (c = Call.loadImageset "Vanilla.imageset" "") }

/-- The manager right after the sample project was loaded, CEGUI not yet started. -/
def sampleManager : CEGUIManager :=
  { currentProject := some sampleProject
    initialized := false
    autoLoadResources := true
    calls := [] }

/-! ## Part B: `Application::checkForUpdates` -/

/-- A `QVersionNumber`: its segments.  `QVersionNumber::fromString` reads
non-negative decimal numbers, so the segments are naturals. -/
abbrev QVersionNumber := List Nat

/-- `QVersionNumber::normalized`: the version with its trailing zero segments
dropped (the loop runs from the last segment down to the first non-zero one). -/
def QVersionNumber.normalized (v : QVersionNumber) : QVersionNumber :=
  (v.reverse.dropWhile (fun seg => seg == 0)).reverse

/-- `QVersionNumber::compare`: the difference of the first pair of segments that
differ; when one version is an initial part of the other, the first extra
segment of the longer one decides (a zero segment counts as `1`). -/
def QVersionNumber.compare : QVersionNumber → QVersionNumber → Int
  | [], [] => 0
  | a :: _, [] => if a ≠ 0 then (a : Int) else 1
  | [], b :: _ => if b ≠ 0 then -(b : Int) else -1
  | a :: as, b :: bs => if a ≠ b then (a : Int) - (b : Int) else QVersionNumber.compare as bs

/-- A `QVariant` as the code sees it: by the answers of the three conversions
it calls.  (`toUrl` is read through `toString`.) -/
structure QVariant where
  toBool : Bool
  toLongLong : Int
  toString : String
deriving DecidableEq, Repr

/-- The invalid variant `QSettings::value` returns for a missing key. -/
def QVariant.invalid : QVariant := ⟨false, 0, ""⟩

/-- The variant made from `true` / `false`. -/
def QVariant.ofBool (b : Bool) : QVariant :=
  ⟨b, if b then 1 else 0, if b then "true" else "false"⟩

/-- The variant made from a `qint64`. -/
def QVariant.ofLongLong (i : Int) : QVariant := ⟨i != 0, i, ToString.toString i⟩

/-- The variant made from a string; `toBool` and `toLongLong` follow Qt's rules
for strings on plain inputs. -/
def QVariant.ofString (s : String) : QVariant :=
  ⟨!(s.isEmpty || s.toLower == "0" || s.toLower == "false"), s.toInt?.getD 0, s⟩

/-- The persistent store behind `QSettings`: keys with their values. -/
abbrev QSettings := List (String × QVariant)

/-- Whether `key` is the setting `group` itself or one of its sub-settings. -/
def inGroup (group : String) (key : String) : Bool :=
  key == group || (group ++ "/").data.isPrefixOf key.data

/-- `QSettings::value(key)`. -/
def QSettings.value (q : QSettings) (key : String) : QVariant :=
  (q.lookup key).getD QVariant.invalid

/-- `QSettings::value(key, defaultValue)`. -/
def QSettings.valueD (q : QSettings) (key : String) (dflt : QVariant) : QVariant :=
  (q.lookup key).getD dflt

/-- `QSettings::setValue(key, value)`. -/
def QSettings.setValue (q : QSettings) (key : String) (v : QVariant) : QSettings :=
  (key, v) :: q.filter (fun kv => kv.1 != key)

/-- `QSettings::remove(key)`: removes the setting and all its sub-settings. -/
def QSettings.remove (q : QSettings) (key : String) : QSettings :=
  q.filter (fun kv => !inGroup key kv.1)

/-- The settings of group `group`, in store order. -/
def QSettings.group (q : QSettings) (group : String) : QSettings :=
  q.filter (fun kv => inGroup group kv.1)

/-- Texts passed to `MainWindow::setStatusMessage`. -/
inductive StatusMessage where
  | empty
  | checkingForUpdates
  | autoUpdateBlocked (latestVersionStr : String)
  | noUpdateFound
  | failedToCheck
deriving DecidableEq, Repr

/-- The text of a status message. -/
def StatusMessage.text : StatusMessage → String
  | .empty => ""
  | .checkingForUpdates => "Checking for updates..."
  | .autoUpdateBlocked v => "Auto-update to " ++ v ++
      " is blocked because it failed before. Use Help->Check For Updates to try again."
  | .noUpdateFound => "No update found"
  | .failedToCheck => "Failed to check for updates"

/-- Observable actions of the update check, one constructor per call site. -/
inductive Event where
  /-- `qCritical() << ...` -/
  | logCritical (text : String)
  /-- `cb()` -/
  | callback
  /-- `_mainWindow->setStatusMessage(...)` -/
  | setStatusMessage (msg : StatusMessage)
  /-- `_network->get(QNetworkRequest(infoUrl))` -/
  | networkGet (url : String)
  /-- `QMessageBox::warning(_mainWindow, tr("Auto-update blocked"), msg)` -/
  | warnAutoUpdateBlocked (latestVersionStr : String)
  /-- `QMessageBox::information(_mainWindow, tr("Already updated"), msg)` -/
  | informAlreadyUpdated (applicationVersion : String)
  /-- `QMessageBox::question(_mainWindow, tr("Update check failed"), ...)` -/
  | askUpdateCheckFailed (errorString : String)
  /-- `QDesktopServices::openUrl(...)` on the releases page -/
  | openReleasesPage
  /-- `updateDir.removeRecursively()` on `getUpdatePath()` -/
  | removeUpdateDir
  /-- `UpdateDialog dlg(currentVersion, latestVersion, releaseInfo); dlg.exec()` -/
  | updateDialogExec (currentVersion latestVersion : QVersionNumber)
deriving DecidableEq, Repr

/-- How the network reply ends.  `networkError`: the reply reports an error, so
`errorOccurred` is emitted and `finished` after it (the `finished` handler checks
for exactly that case).  `releaseInfo`: the reply finishes without error;
`tagName` is `releaseInfo.value("tag_name").toString()`, the empty string when
the body is not a JSON object or has no string `tag_name`. -/
inductive Reply where
  | networkError (errorString : String)
  | releaseInfo (tagName : String)
deriving DecidableEq, Repr

/-- The surroundings of one update check.
* `internetConnected`: `Utils::isInternetConnected()`;
* `currTime`: `QDateTime::currentSecsSinceEpoch()`;
* `updateCheckFrequencySec`: the settings entry
  `global/app/update_check_frequency` as `int`;
* `fromString`: `QVersionNumber::fromString`;
* `reply`: how the request ends;
* `openReleasesPageAnswer`: whether the user answers *Yes* in `onUpdateError`;
* `updateDirExists`: `QDir(getUpdatePath()).exists()`. -/
structure UpdateEnv where
  internetConnected : Bool
  currTime : Int
  updateCheckFrequencySec : Int
  fromString : String → QVersionNumber
  reply : Reply
  openReleasesPageAnswer : Bool
  updateDirExists : Bool

/-- The application state the update check works on: the `QSettings` store and
the log of observable actions. -/
structure AppState where
  settings : QSettings
  events : List Event
deriving DecidableEq, Repr

/-- `setApplicationVersion("1.1.2")` in the constructor. -/
def applicationVersion : String := "1.1.2"

/-- The default of `update/url`. -/
def defaultInfoUrl : String := "https://api.github.com/repos/cegui/ceed-cpp/releases/latest"

/-- The value of a `qint64` expression: two's complement wrap-around to 64 bits. -/
def wrapInt64 (x : Int) : Int := (x + 2 ^ 63) % 2 ^ 64 - 2 ^ 63

/-- Append an observable action to the log. -/
def AppState.emit (s : AppState) (e : Event) : AppState :=
  { s with events := s.events ++ [e] }

/-- `if (cb) cb();` where `cb` tells whether the callback is non-empty. -/
def invokeCallback (cb : Bool) (s : AppState) : AppState :=
  if cb then s.emit .callback else s

/-- The log entries of `if (cb) cb();`. -/
def callbackEvents (cb : Bool) : List Event := if cb then [.callback] else []

/-- The first two statements of the `finished` handler on the tag: one leading
`v` is cut off. -/
def stripLeadingV (tagName : String) : String :=
  if !tagName.isEmpty && tagName.front == 'v' then tagName.drop 1 else tagName

/-- `Application::onUpdateError`. -/
def onUpdateError (env : UpdateEnv) (url : String) (errorString : String) (s : AppState) :
    AppState :=
  let s := s.emit (.setStatusMessage .failedToCheck)
  let s := s.emit (.logCritical ("Update error: '" ++ errorString ++ "' accessing " ++ url))
  let s := s.emit (.askUpdateCheckFailed errorString)
  if env.openReleasesPageAnswer then s.emit .openReleasesPage else s

/-- The handler connected to `QNetworkReply::errorOccurred`. -/
def onErrorOccurred (env : UpdateEnv) (cb : Bool) (url : String) (errorString : String)
    (s : AppState) : AppState :=
  invokeCallback cb (onUpdateError env url errorString s)

/-- The handler connected to `QNetworkReply::finished`, for a reply without
error carrying `tagName`. -/
def onFinishedNoError (env : UpdateEnv) (manual : Bool) (cb : Bool) (url : String)
    (tagName : String) (s : AppState) : AppState :=
  let latestVersionStr := stripLeadingV tagName
  if latestVersionStr.isEmpty then
    -- throw descriptive_exception, caught below: onUpdateError, then the callback
    invokeCallback cb (onUpdateError env url "Latest release version string is empty" s)
  else
    let latestVersion := env.fromString latestVersionStr
    let currentVersion := env.fromString applicationVersion
    if QVersionNumber.compare latestVersion.normalized currentVersion.normalized > 0 then
      if (s.settings.value "update/failed").toBool then
        let savedVersion := env.fromString (s.settings.value "update/version").toString
        if QVersionNumber.compare latestVersion.normalized savedVersion.normalized = 0 then
          let s := s.emit (.setStatusMessage (.autoUpdateBlocked latestVersionStr))
          let s := if manual then s.emit (.warnAutoUpdateBlocked latestVersionStr) else s
          invokeCallback cb s
        else
          let s := { s with settings := s.settings.remove "update" }
          let s := if env.updateDirExists then s.emit .removeUpdateDir else s
          let s := s.emit (.updateDialogExec currentVersion latestVersion)
          invokeCallback cb s
      else
        let s := s.emit (.updateDialogExec currentVersion latestVersion)
        invokeCallback cb s
    else
      let s := s.emit (.setStatusMessage .noUpdateFound)
      let s := if manual then s.emit (.informAlreadyUpdated applicationVersion) else s
      invokeCallback cb s

/-- The handler connected to `QNetworkReply::finished`. -/
def onFinished (env : UpdateEnv) (manual : Bool) (cb : Bool) (url : String) (s : AppState) :
    AppState :=
  match env.reply with
  | .networkError _ =>
    -- Already processed by QNetworkReply::errorOccurred handler
    invokeCallback cb s
  | .releaseInfo tagName => onFinishedNoError env manual cb url tagName s

/-- The signals of the reply reach their handlers: `errorOccurred` (on error)
and then `finished`. -/
def deliverReply (env : UpdateEnv) (manual : Bool) (cb : Bool) (url : String) (s : AppState) :
    AppState :=
  match env.reply with
  | .networkError errorString =>
    onFinished env manual cb url (onErrorOccurred env cb url errorString s)
  | .releaseInfo _ => onFinished env manual cb url s

/-- The test `currTime - lastUpdateCheckTime < updateCheckFrequencySec` and the
test `updateCheckFrequencySec < 0` before it: whether an automatic check is
skipped. -/
def skippedBySettings (env : UpdateEnv) (s : AppState) : Bool :=
  if env.updateCheckFrequencySec < 0 then true
  else
    let lastUpdateCheckTime :=
      (s.settings.valueD "update/lastTimestamp" (QVariant.ofLongLong 0)).toLongLong
    decide (wrapInt64 (env.currTime - lastUpdateCheckTime) < env.updateCheckFrequencySec)

/-- The URL of the release information: `update/url`, with its default. -/
def infoUrlOf (q : QSettings) : String :=
  (q.valueD "update/url" (QVariant.ofString defaultInfoUrl)).toString

/-- The state in which the request is under way: the time stamp is stored, the
status line is set and the request is sent. -/
def sendRequest (env : UpdateEnv) (s : AppState) : AppState :=
  let s := { s with settings :=
    s.settings.setValue "update/lastTimestamp" (QVariant.ofLongLong env.currTime) }
  let s := s.emit (.setStatusMessage .checkingForUpdates)
  s.emit (.networkGet (infoUrlOf s.settings))

/-- `Application::checkForUpdates(manual, cb)`, run up to the end of the reply
handlers.  What the user does inside the update dialog is outside the routine. -/
def checkForUpdates (env : UpdateEnv) (manual : Bool) (cb : Bool) (s : AppState) : AppState :=
  if !env.internetConnected then
    invokeCallback cb (s.emit (.logCritical "No Internet connection, update check skipped"))
  else if !manual && skippedBySettings env s then
    -- Automatic update checks should honor their settings
    invokeCallback cb s
  else
    let s := sendRequest env s
    deliverReply env manual cb (infoUrlOf s.settings) s

/-! ### Words of the specification for the update check -/

/-- Reads a decimal number at the start of `cs`: its value and the rest. -/
def readNumber : List Char → Nat → Nat × List Char
  | c :: cs, acc => if c.isDigit then readNumber cs (acc * 10 + (c.toNat - 48)) else (acc, c :: cs)
  | [], acc => (acc, [])

/-- Splits plain dotted decimal text such as `1.2.0` into its numbers; reading
stops where the text stops being of that form. -/
def dottedSegments : Nat → List Char → List Nat
  | 0, _ => []
  | _ + 1, [] => []
  | fuel + 1, c :: cs =>
    if c.isDigit then
      match readNumber (c :: cs) 0 with
      | (n, '.' :: rest) => n :: dottedSegments fuel rest
      | (n, _) => [n]
    else []

/-- A version reader for plain dotted decimal text, standing in for
`QVersionNumber::fromString` in the examples. -/
def sampleFromString (s : String) : QVersionNumber :=
  dottedSegments s.length s.data

/-- Internet is up, checks run at every launch, the latest release is `v1.2.0`. -/
def sampleUpdateEnv : UpdateEnv :=
  { internetConnected := true
    currTime := 1900000000
    updateCheckFrequencySec := 0
    fromString := sampleFromString
    reply := .releaseInfo "v1.2.0"
    openReleasesPageAnswer := false
    updateDirExists := true }

/-- As `sampleUpdateEnv`, but the request ends in a network error. -/
def networkErrorEnv : UpdateEnv :=
  { sampleUpdateEnv with reply := .networkError "Host not found" }

/-- Settings in which the last check is stamped later than `currTime` of the
sample surroundings (the clock was set back since). -/
def futureStampState : AppState :=
  { settings := [("update/lastTimestamp", QVariant.ofLongLong 2000000000)]
    events := [] }

/-- Settings after an update to `1.2.0` failed. -/
def failedUpdateState : AppState :=
  { settings :=
      [ ("update/lastTimestamp", QVariant.ofLongLong 1800000000),
        ("update/version", QVariant.ofString "1.2.0"),
        ("update/failed", QVariant.ofBool true),
        ("lastProject", QVariant.ofString "/home/user/game.project") ]
    events := [] }

/-! ## Part C: `Application::checkUpdateResults` -/

/-- `QVersionNumber::toString`: the segments joined by dots. -/
def QVersionNumber.toString (v : QVersionNumber) : String :=
  ".".intercalate (v.map (fun seg => ToString.toString seg))

/-- The message boxes and file operations of `checkUpdateResults`, one
constructor per call site. -/
inductive UpdateResultEvent where
  /-- `QMessageBox::warning(_mainWindow, tr("Warning"), ...)`: launched by an
  updater script but no update was scheduled -/
  | warnNoUpdateScheduled
  /-- `backupDir.removeRecursively()` on `applicationDirPath() + "_old"` -/
  | removeBackupDir
  /-- `updateDir.removeRecursively()` on `getUpdatePath()` -/
  | removeUpdateDir
  /-- `QMessageBox::information(_mainWindow, tr("Updated"), ...)` -/
  | informUpdated (version : String) (releaseWebPage : String) (updateResult : Int)
      (updateMessage : String)
  /-- `QMessageBox::warning(_mainWindow, tr("Updated with problems"), ...)` -/
  | warnUpdatedWithProblems (version : String) (updateResult : Int) (updateMessage : String)
  /-- `QMessageBox::critical(_mainWindow, tr("Update failed"), ...)` -/
  | criticalUpdateFailed (savedVersion : String) (updateResult : Int) (updateMessage : String)
deriving DecidableEq, Repr

/-- The surroundings of `checkUpdateResults`.
* `fromString`: `QVersionNumber::fromString`;
* `updateResultOption`: `none` when the option `updateResult` is not set on the
  command line, otherwise `_cmdLine->value("updateResult").toInt()`;
* `updateMessageOption`: `_cmdLine->value("updateMessage")`;
* `backupDirExists`, `backupDirRemoved`: `backupDir.exists()` and the answer of
  `backupDir.removeRecursively()`;
* `updateDirExists`: `QDir(getUpdatePath()).exists()`. -/
structure LaunchEnv where
  fromString : String → QVersionNumber
  updateResultOption : Option Int
  updateMessageOption : String
  backupDirExists : Bool
  backupDirRemoved : Bool
  updateDirExists : Bool

/-- `Application::checkUpdateResults`: the settings afterwards and the message
boxes and file operations of the call, in order. -/
def checkUpdateResults (env : LaunchEnv) (q : QSettings) : QSettings × List UpdateResultEvent :=
  let updateLaunched := (q.value "update/launched").toBool
  let startedByUpdater := env.updateResultOption.isSome
  if !updateLaunched && !startedByUpdater then (q, [])
  else
    let evs : List UpdateResultEvent :=
      if !updateLaunched then [.warnNoUpdateScheduled] else []
    let updateResult : Int :=
      match env.updateResultOption with
      | some r => r
      | none => -1
    let updateMessage :=
      if startedByUpdater then env.updateMessageOption else "<Not launched by updater>"
    let currentVersion := env.fromString applicationVersion
    let savedVersion := env.fromString (q.value "update/version").toString
    if QVersionNumber.compare currentVersion.normalized savedVersion.normalized ≥ 0 then
      -- Updated but couldn't remove a tmp folder, let's try again
      let retry := decide (updateResult = 30)
      let evs := if retry && env.backupDirExists then evs ++ [.removeBackupDir] else evs
      let cleaned := retry && (!env.backupDirExists || env.backupDirRemoved)
      let updateResult := if cleaned then 0 else updateResult
      let updateMessage := if cleaned then "Updated successfully" else updateMessage
      let evs := if env.updateDirExists then evs ++ [.removeUpdateDir] else evs
      let storedWebPage := (q.value "update/webPage").toString
      let releaseWebPage :=
        if storedWebPage.isEmpty then
          "https://github.com/cegui/ceed-cpp/releases/tag/v"
            ++ QVersionNumber.toString currentVersion
        else storedWebPage
      let q := q.remove "update"
      if decide (updateResult = 0) && startedByUpdater then
        (q, evs ++ [.informUpdated (QVersionNumber.toString currentVersion) releaseWebPage
          updateResult updateMessage])
      else
        (q, evs ++ [.warnUpdatedWithProblems (QVersionNumber.toString currentVersion)
          updateResult updateMessage])
    else
      (q.setValue "update/failed" (QVariant.ofBool true),
        evs ++ [.criticalUpdateFailed (QVersionNumber.toString savedVersion)
          updateResult updateMessage])

/-! ### Sample data for the update results -/

/-- Started by the updater with result code 0. -/
def sampleLaunchEnv : LaunchEnv :=
  { fromString := sampleFromString
    updateResultOption := some 0
    updateMessageOption := "OK"
    backupDirExists := false
    backupDirRemoved := false
    updateDirExists := true }

/-- Settings after the update dialog scheduled an update to `version`. -/
def launchedSettings (version : String) : QSettings :=
  [ ("update/lastTimestamp", QVariant.ofLongLong 1800000000),
    ("update/version", QVariant.ofString version),
    ("update/package", QVariant.ofString "CEED-v1.2.0-Win-x64"),
    ("update/launched", QVariant.ofBool true),
    ("lastProject", QVariant.ofString "/home/user/game.project") ]

/-! ## Lemmas on the `try` block -/

theorem runCalls_single (env : CeguiEnv) (c : Call) (log : List Call) :
    runCalls env [c] log = issue env c log := by
  simp only [runCalls]
  cases issue env c log <;> rfl

theorem runCalls_nil (env : CeguiEnv) (log : List Call) :
    runCalls env [] log = pure log := rfl

theorem runCalls_cons (env : CeguiEnv) (c : Call) (cs : List Call) (log : List Call) :
    runCalls env (c :: cs) log = (issue env c log >>= fun l => runCalls env cs l) := by
  simp only [runCalls]
  cases issue env c log <;> rfl

theorem runCalls_append (env : CeguiEnv) (a b : List Call) (log : List Call) :
    runCalls env (a ++ b) log = (runCalls env a log >>= fun l => runCalls env b l) := by
  induction a generalizing log with
  | nil => rfl
  | cons c cs ih =>
    simp only [List.cons_append, runCalls]
    cases issue env c log with
    | error l => rfl
    | ok l => exact ih l

theorem loadElements_eq_runCalls (env : CeguiEnv) (mk : LoadableUIElement → Call)
    (es : List LoadableUIElement) (log : List Call) :
    loadElements env mk es log = runCalls env (es.map mk) log := by
  induction es generalizing log with
  | nil => rfl
  | cons e es ih =>
    simp only [loadElements, List.map_cons, runCalls]
    cases issue env (mk e) log with
    | error l => rfl
    | ok l => exact ih l

/-- The loop body issues exactly the calls of `schemeCalls`, in that order,
stopping at the first one that throws. -/
theorem loadScheme_eq_runCalls (env : CeguiEnv) (f : String) (log : List Call) :
    loadScheme env f log = runCalls env (schemeCalls env f) log := by
  simp only [loadScheme, schemeCalls, runCalls_append, loadElements_eq_runCalls,
    runCalls_cons, runCalls_nil, bind_assoc, bind_pure, pure_bind, List.singleton_append,
    List.cons_append, List.nil_append]

theorem loadSchemes_eq_runCalls (env : CeguiEnv) (fs : List String) (log : List Call) :
    loadSchemes env fs log = runCalls env (allSchemeCalls env fs) log := by
  induction fs generalizing log with
  | nil => rfl
  | cons f fs ih =>
    simp only [loadSchemes, allSchemeCalls, runCalls_append, loadScheme_eq_runCalls]
    cases runCalls env (schemeCalls env f) log with
    | error l => rfl
    | ok l => exact ih l

theorem noLoadFailure_nil (env : CeguiEnv) (log : List Call) : NoLoadFailure env log [] := by
  intro p c t h
  cases p <;> simp at h

theorem noLoadFailure_cons (env : CeguiEnv) (log : List Call) (a : Call) (cs : List Call)
    (ha : env.throws log a = false) (h : NoLoadFailure env (log ++ [a]) cs) :
    NoLoadFailure env log (a :: cs) := by
  intro p c t hp
  cases p with
  | nil =>
    simp only [List.nil_append, List.cons.injEq] at hp
    rw [List.append_nil, ← hp.1]
    exact ha
  | cons b p =>
    simp only [List.cons_append, List.cons.injEq] at hp
    have := h p c t hp.2
    rw [← hp.1]
    simpa using this

theorem not_someLoadFailure_of_noLoadFailure (env : CeguiEnv) (log cs : List Call)
    (h : NoLoadFailure env log cs) : ¬ SomeLoadFailure env log cs := by
  rintro ⟨p, c, t, hp, ht⟩
  rw [h p c t hp] at ht
  exact Bool.noConfusion ht

/-- A run of a list of calls either completes and logs all of them, or stops at
the first call that throws, having logged the calls up to and including it. -/
theorem runCalls_cases (env : CeguiEnv) (cs : List Call) (log : List Call) :
    (NoLoadFailure env log cs ∧ runCalls env cs log = .ok (log ++ cs)) ∨
    (∃ p c t, cs = p ++ c :: t ∧ env.throws (log ++ p) c = true ∧
      runCalls env cs log = .error (log ++ p ++ [c])) := by
  induction cs generalizing log with
  | nil =>
    left
    exact ⟨noLoadFailure_nil env log, by simp [runCalls]⟩
  | cons a cs ih =>
    cases ha : env.throws log a with
    | true =>
      right
      refine ⟨[], a, cs, rfl, by simpa using ha, ?_⟩
      simp [runCalls, issue, ha]
    | false =>
      have hrun : runCalls env (a :: cs) log = runCalls env cs (log ++ [a]) := by
        simp [runCalls, issue, ha]
      rcases ih (log ++ [a]) with ⟨hno, hok⟩ | ⟨p, c, t, hp, hthrow, herr⟩
      · left
        refine ⟨noLoadFailure_cons env log a cs ha hno, ?_⟩
        rw [hrun, hok]
        simp
      · right
        refine ⟨a :: p, c, t, by simp [hp], by simpa using hthrow, ?_⟩
        rw [hrun, herr]
        simp

theorem runCalls_ok_of_noLoadFailure (env : CeguiEnv) (cs log : List Call)
    (h : NoLoadFailure env log cs) : runCalls env cs log = .ok (log ++ cs) := by
  rcases runCalls_cases env cs log with ⟨_, hok⟩ | ⟨p, c, t, hp, hthrow, _⟩
  · exact hok
  · exact absurd ⟨p, c, t, hp, hthrow⟩ (not_someLoadFailure_of_noLoadFailure env log cs h)

theorem runCalls_error_of_someLoadFailure (env : CeguiEnv) (cs log : List Call)
    (h : SomeLoadFailure env log cs) :
    ∃ p c t, cs = p ++ c :: t ∧ env.throws (log ++ p) c = true ∧
      runCalls env cs log = .error (log ++ p ++ [c]) := by
  rcases runCalls_cases env cs log with ⟨hno, _⟩ | h2
  · exact absurd h (not_someLoadFailure_of_noLoadFailure env log cs hno)
  · exact h2

/-! ## The sync routine on its main path -/

theorem ensureCEGUIInitialized_autoLoad (env : CeguiEnv) (m : CEGUIManager) :
    (ensureCEGUIInitialized env m).autoLoadResources = m.autoLoadResources := by
  unfold ensureCEGUIInitialized; split_ifs <;> rfl

theorem ensureCEGUIInitialized_currentProject (env : CeguiEnv) (m : CEGUIManager) :
    (ensureCEGUIInitialized env m).currentProject = m.currentProject := by
  unfold ensureCEGUIInitialized; split_ifs <;> rfl

/-- The calls of the boot: none when CEGUI is initialised already or the boot
fails, the six default directories otherwise (on the default provider). -/
theorem ensureCEGUIInitialized_calls (env : CeguiEnv) (m : CEGUIManager) :
    (ensureCEGUIInitialized env m).calls =
      m.calls ++ (if m.initialized then []
        else if env.bootstrapSucceeds && env.defaultResourceProvider
          then defaultPathCalls env else []) := by
  unfold ensureCEGUIInitialized
  cases m.initialized <;> cases env.bootstrapSucceeds <;>
    cases env.defaultResourceProvider <;> simp

/-- Past the two directory checks the routine is the boot (if due), the purge,
the resource paths and one run of the scheme calls; a `true` result keeps the
log of that run, a `false` result has the purge of the `catch` block after it. -/
theorem sync_main (env : CeguiEnv) (m : CEGUIManager) (p : CEGUIProject)
    (hp : m.currentProject = some p) (hd : p.checkAllDirectories = true)
    (hs : p.schemesDirExists = true) :
    syncProjectToCEGUIInstance env m =
      match runCalls env (allSchemeCalls env (collectSchemeFiles p.schemesDirEntries))
          (logAtTry env m p) with
      | .ok log =>
        (true, { currentProject := m.currentProject,
                 initialized := (ensureCEGUIInitialized env m).initialized,
                 autoLoadResources := true, calls := log })
      | .error log =>
        (false, { currentProject := m.currentProject,
                  initialized := (ensureCEGUIInitialized env m).initialized,
                  autoLoadResources := true,
                  calls := if (ensureCEGUIInitialized env m).initialized
                    then log ++ purgeCalls else log }) := by
  have hcp := ensureCEGUIInitialized_currentProject env m
  unfold syncProjectToCEGUIInstance
  simp only [hp, hd, hs, Bool.not_true, Bool.false_eq_true, if_false]
  rw [loadSchemes_eq_runCalls]
  unfold logAtTry cleanCEGUIResources
  generalize ensureCEGUIInitialized env m = M at hcp
  obtain ⟨cp, ini, al, cl⟩ := M
  simp only at hcp
  subst hcp
  cases ini <;> cases env.defaultResourceProvider <;> simp <;>
    (split <;> simp_all)

/-- The log at the entry of the `try` block, spelled out, when CEGUI is
initialised after the boot. -/
theorem logAtTry_eq (env : CeguiEnv) (m : CEGUIManager) (p : CEGUIProject)
    (hinit : (ensureCEGUIInitialized env m).initialized = true) :
    logAtTry env m p =
      m.calls
        ++ (if m.initialized then []
            else if env.defaultResourceProvider then defaultPathCalls env else [])
        ++ purgeCalls
        ++ (if env.defaultResourceProvider then resourcePathCalls p else []) := by
  have hcalls := ensureCEGUIInitialized_calls env m
  have hboot : m.initialized = true ∨ env.bootstrapSucceeds = true := by
    unfold ensureCEGUIInitialized at hinit
    cases hm : m.initialized
    · cases hb : env.bootstrapSucceeds
      · simp [hm, hb] at hinit
      · exact Or.inr rfl
    · exact Or.inl rfl
  unfold logAtTry cleanCEGUIResources
  simp only [hinit, Bool.not_true, Bool.false_eq_true, if_false, hcalls]
  rcases hboot with h | h
  · simp [h]
  · cases m.initialized <;> cases env.defaultResourceProvider <;> simp [h]

theorem logAtTry_extends (env : CeguiEnv) (m : CEGUIManager) (p : CEGUIProject) :
    ∃ l, logAtTry env m p = m.calls ++ l ∧
      ∀ c ∈ l, c ∈ purgeCalls ∨ c ∈ resourcePathCalls p ++ defaultPathCalls env := by
  have hcalls := ensureCEGUIInitialized_calls env m
  refine ⟨(if m.initialized then []
        else if env.bootstrapSucceeds && env.defaultResourceProvider
          then defaultPathCalls env else [])
      ++ (if (ensureCEGUIInitialized env m).initialized then purgeCalls else [])
      ++ (if env.defaultResourceProvider then resourcePathCalls p else []), ?_, ?_⟩
  · unfold logAtTry cleanCEGUIResources
    cases hI : (ensureCEGUIInitialized env m).initialized <;>
      simp [hcalls, List.append_assoc]
  · intro c hc
    rcases List.mem_append.1 hc with h | h
    · rcases List.mem_append.1 h with h | h
      · right
        split_ifs at h
        · simp at h
        · exact List.mem_append.2 (Or.inr h)
        · simp at h
      · left
        split_ifs at h
        · exact h
        · simp at h
    · right
      split_ifs at h
      · exact List.mem_append.2 (Or.inl h)
      · simp at h

/-- The scheme files of a directory are the names of its entries that are not
directories and have the suffix `scheme`. -/
theorem mem_collectSchemeFiles (es : List DirEntry) (f : String) :
    f ∈ collectSchemeFiles es ↔
      ∃ e ∈ es, e.fileName = f ∧ e.isDir = false ∧ e.suffix = "scheme" := by
  induction es with
  | nil => simp [collectSchemeFiles]
  | cons e es ih =>
    unfold collectSchemeFiles
    by_cases h : (!e.isDir && e.suffix == "scheme") = true
    · have h2 : e.isDir = false ∧ e.suffix = "scheme" := by simpa using h
      rw [if_pos h, List.mem_cons, ih]
      constructor
      · rintro (rfl | ⟨x, hx, hxf⟩)
        · exact ⟨e, List.mem_cons_self _ _, rfl, h2⟩
        · exact ⟨x, List.mem_cons_of_mem _ hx, hxf⟩
      · rintro ⟨x, hx, hxf⟩
        rcases List.mem_cons.1 hx with rfl | hx
        · exact Or.inl hxf.1.symm
        · exact Or.inr ⟨x, hx, hxf⟩
    · have h2 : ¬ (e.isDir = false ∧ e.suffix = "scheme") := by simpa using h
      rw [if_neg h, ih]
      constructor
      · rintro ⟨x, hx, hxf⟩
        exact ⟨x, List.mem_cons_of_mem _ hx, hxf⟩
      · rintro ⟨x, hx, hxf⟩
        rcases List.mem_cons.1 hx with rfl | hx
        · exact absurd hxf.2 h2
        · exact ⟨x, hx, hxf⟩

theorem runLog_of_calls (env : CeguiEnv) (m : CEGUIManager) (l : List Call)
    (h : (syncProjectToCEGUIInstance env m).2.calls = m.calls ++ l) : runLog env m = l := by
  unfold runLog
  rw [h]
  simp

/-- C1 as stated fails: on the first synchronisation (CEGUI not yet initialised)
the run returns `true`, yet its first call is not the purge: the boot sets the
default directory of the resource groups before it. -/
theorem first_sync_sets_default_paths_before_purge :
    sampleManager.currentProject = some sampleProject ∧
    sampleProject.checkAllDirectories = true ∧
    sampleProject.schemesDirExists = true ∧
    (syncProjectToCEGUIInstance sampleEnv sampleManager).1 = true ∧
    (runLog sampleEnv sampleManager).head? =
      some (Call.setResourceGroupDirectory "imagesets" "/opt/ceed/datafiles/imagesets") ∧
    runLog sampleEnv sampleManager ≠
      [ Call.destroyAllWindows,
        Call.cleanDeadPool,
        Call.fontDestroyAll,
        Call.imageDestroyAll,
        Call.schemeDestroyAll,
        Call.eraseAllWidgetLooks,
        Call.destroyAllAnimations,
        Call.removeAllFalagardWindowMappings,
        Call.removeAllWindowTypeAliases,
        Call.removeAllFactories,
        Call.addStandardWindowFactories,
        Call.destroyAllTextures ]
      ++ [ Call.setResourceGroupDirectory "imagesets" "/proj/imagesets",
        Call.setResourceGroupDirectory "fonts" "/proj/fonts",
        Call.setResourceGroupDirectory "schemes" "/proj/schemes",
        Call.setResourceGroupDirectory "looknfeels" "/proj/looknfeel",
        Call.setResourceGroupDirectory "layouts" "/proj/layouts",
        Call.setResourceGroupDirectory "xml_schemas" "/proj/xml_schemas" ]
      ++ [ Call.schemeCreateFromFile "TaharezLook.scheme",
        Call.loadImageset "TaharezLook.imageset" "",
        Call.loadImageFileImagesets "TaharezLook.scheme",
        Call.fontCreateFromFile "DejaVuSans-10.font" "",
        Call.parseLookNFeelSpecificationFromFile "TaharezLook.looknfeel" "",
        Call.loadWindowRendererFactories "TaharezLook.scheme",
        Call.loadWindowFactories "TaharezLook.scheme",
        Call.loadFactoryAliases "TaharezLook.scheme",
        Call.loadFalagardMappings "TaharezLook.scheme" ]
      ++ [ Call.schemeCreateFromFile "VanillaSkin.scheme",
        Call.loadImageset "Vanilla.imageset" "",
        Call.loadImageFileImagesets "VanillaSkin.scheme",
        Call.fontCreateFromFile "DejaVuSans-10.font" "",
        Call.parseLookNFeelSpecificationFromFile "Vanilla.looknfeel" "",
        Call.loadWindowRendererFactories "VanillaSkin.scheme",
        Call.loadWindowFactories "VanillaSkin.scheme",
        Call.loadFactoryAliases "VanillaSkin.scheme",
        Call.loadFalagardMappings "VanillaSkin.scheme" ] := by
  decide

/-- C1, amended. For a loaded project whose directories pass the check and whose
schemes directory exists, with CEGUI initialised after the boot and serving the
default resource provider, and with no load step failing, the calls of one run
are: on a first synchronisation only, the six default resource group
directories set by the boot; then the full purge; then the six resource group
paths of the project; then for each scheme file in turn the calls of
`schemeCalls` (create the scheme, XML imagesets, image-file imagesets, fonts,
look-and-feels, window renderer factories, window factories, factory aliases,
falagard mappings). -/
theorem sync_issues_calls_in_fixed_order (env : CeguiEnv) (m : CEGUIManager)
    (p : CEGUIProject)
    (hp : m.currentProject = some p) (hd : p.checkAllDirectories = true)
    (hs : p.schemesDirExists = true)
    (hinit : (ensureCEGUIInitialized env m).initialized = true)
    (hprov : env.defaultResourceProvider = true)
    (hok : NoLoadFailure env (logAtTry env m p)
      (allSchemeCalls env (collectSchemeFiles p.schemesDirEntries))) :
    runLog env m =
      (if m.initialized then []
        else
          [ Call.setResourceGroupDirectory "imagesets" (env.datafilesFilePath "imagesets"),
            Call.setResourceGroupDirectory "fonts" (env.datafilesFilePath "fonts"),
            Call.setResourceGroupDirectory "schemes" (env.datafilesFilePath "schemes"),
            Call.setResourceGroupDirectory "looknfeels" (env.datafilesFilePath "looknfeel"),
            Call.setResourceGroupDirectory "layouts" (env.datafilesFilePath "layouts"),
            Call.setResourceGroupDirectory "xml_schemas" (env.datafilesFilePath "xml_schemas") ])
      ++ [ Call.destroyAllWindows,
        Call.cleanDeadPool,
        Call.fontDestroyAll,
        Call.imageDestroyAll,
        Call.schemeDestroyAll,
        Call.eraseAllWidgetLooks,
        Call.destroyAllAnimations,
        Call.removeAllFalagardWindowMappings,
        Call.removeAllWindowTypeAliases,
        Call.removeAllFactories,
        Call.addStandardWindowFactories,
        Call.destroyAllTextures ]
      ++ [ Call.setResourceGroupDirectory "imagesets" p.imagesetsPath,
        Call.setResourceGroupDirectory "fonts" p.fontsPath,
        Call.setResourceGroupDirectory "schemes" p.schemesPath,
        Call.setResourceGroupDirectory "looknfeels" p.looknfeelsPath,
        Call.setResourceGroupDirectory "layouts" p.layoutsPath,
        Call.setResourceGroupDirectory "xml_schemas" p.xmlSchemasPath ]
      ++ allSchemeCalls env (collectSchemeFiles p.schemesDirEntries) := by
  have hlog := logAtTry_eq env m p hinit
  simp only [hprov, if_true] at hlog
  apply runLog_of_calls
  rw [sync_main env m p hp hd hs, runCalls_ok_of_noLoadFailure env _ _ hok, hlog]
  simp only [defaultPathCalls, purgeCalls, resourcePathCalls, List.append_assoc]

/-- C1 amended, at the first synchronisation of the sample project: two scheme
files, each with one imageset, one font and one look-and-feel. -/
theorem sync_issues_calls_in_fixed_order_witness :
    runLog sampleEnv sampleManager =
      [ Call.setResourceGroupDirectory "imagesets" "/opt/ceed/datafiles/imagesets",
        Call.setResourceGroupDirectory "fonts" "/opt/ceed/datafiles/fonts",
        Call.setResourceGroupDirectory "schemes" "/opt/ceed/datafiles/schemes",
        Call.setResourceGroupDirectory "looknfeels" "/opt/ceed/datafiles/looknfeel",
        Call.setResourceGroupDirectory "layouts" "/opt/ceed/datafiles/layouts",
        Call.setResourceGroupDirectory "xml_schemas" "/opt/ceed/datafiles/xml_schemas" ]
      ++ [ Call.destroyAllWindows,
        Call.cleanDeadPool,
        Call.fontDestroyAll,
        Call.imageDestroyAll,
        Call.schemeDestroyAll,
        Call.eraseAllWidgetLooks,
        Call.destroyAllAnimations,
        Call.removeAllFalagardWindowMappings,
        Call.removeAllWindowTypeAliases,
        Call.removeAllFactories,
        Call.addStandardWindowFactories,
        Call.destroyAllTextures ]
      ++ [ Call.setResourceGroupDirectory "imagesets" "/proj/imagesets",
        Call.setResourceGroupDirectory "fonts" "/proj/fonts",
        Call.setResourceGroupDirectory "schemes" "/proj/schemes",
        Call.setResourceGroupDirectory "looknfeels" "/proj/looknfeel",
        Call.setResourceGroupDirectory "layouts" "/proj/layouts",
        Call.setResourceGroupDirectory "xml_schemas" "/proj/xml_schemas" ]
      ++ [ Call.schemeCreateFromFile "TaharezLook.scheme",
        Call.loadImageset "TaharezLook.imageset" "",
        Call.loadImageFileImagesets "TaharezLook.scheme",
        Call.fontCreateFromFile "DejaVuSans-10.font" "",
        Call.parseLookNFeelSpecificationFromFile "TaharezLook.looknfeel" "",
        Call.loadWindowRendererFactories "TaharezLook.scheme",
        Call.loadWindowFactories "TaharezLook.scheme",
        Call.loadFactoryAliases "TaharezLook.scheme",
        Call.loadFalagardMappings "TaharezLook.scheme" ]
      ++ [ Call.schemeCreateFromFile "VanillaSkin.scheme",
        Call.loadImageset "Vanilla.imageset" "",
        Call.loadImageFileImagesets "VanillaSkin.scheme",
        Call.fontCreateFromFile "DejaVuSans-10.font" "",
        Call.parseLookNFeelSpecificationFromFile "Vanilla.looknfeel" "",
        Call.loadWindowRendererFactories "VanillaSkin.scheme",
        Call.loadWindowFactories "VanillaSkin.scheme",
        Call.loadFactoryAliases "VanillaSkin.scheme",
        Call.loadFalagardMappings "VanillaSkin.scheme" ] :=
  (sync_issues_calls_in_fixed_order sampleEnv sampleManager sampleProject
    rfl rfl rfl rfl rfl (fun _ _ _ _ => rfl)).trans (by decide)

/-! ## Load requests against listings -/

/-- With a project loaded, the calls of one run are: boot, purge and path calls,
then an initial segment of the scheme calls, then possibly the purge of the
`catch` block; a run that returns `true` has all the scheme calls and no purge
after them. -/
theorem runLog_shape (env : CeguiEnv) (m : CEGUIManager) (p : CEGUIProject)
    (hp : m.currentProject = some p) :
    ∃ a pre b t, runLog env m = a ++ pre ++ b ∧
      allSchemeCalls env (collectSchemeFiles p.schemesDirEntries) = pre ++ t ∧
      (∀ c ∈ a, c ∈ purgeCalls ∨ c ∈ resourcePathCalls p ++ defaultPathCalls env) ∧
      (∀ c ∈ b, c ∈ purgeCalls) ∧
      ((syncProjectToCEGUIInstance env m).1 = true → b = [] ∧ t = []) := by
  cases hd : p.checkAllDirectories with
  | false =>
    refine ⟨[], [], [], _, ?_, rfl, by simp, by simp, ?_⟩
    · apply runLog_of_calls
      simp [syncProjectToCEGUIInstance, hp, hd]
    · simp [syncProjectToCEGUIInstance, hp, hd]
  | true =>
    cases hs : p.schemesDirExists with
    | false =>
      refine ⟨if m.initialized then []
          else if env.bootstrapSucceeds && env.defaultResourceProvider
            then defaultPathCalls env else [], [], [], _, ?_, rfl, ?_, by simp, ?_⟩
      · apply runLog_of_calls
        simp [syncProjectToCEGUIInstance, hp, hd, hs, ensureCEGUIInitialized_calls]
      · intro c hc
        right
        split_ifs at hc
        · simp at hc
        · exact List.mem_append.2 (Or.inr hc)
        · simp at hc
      · simp [syncProjectToCEGUIInstance, hp, hd, hs]
    | true =>
      obtain ⟨a, ha, hamem⟩ := logAtTry_extends env m p
      rcases runCalls_cases env (allSchemeCalls env (collectSchemeFiles p.schemesDirEntries))
        (logAtTry env m p) with ⟨_, hok⟩ | ⟨pre, c, t, hcs, _, herr⟩
      · refine ⟨a, _, [], [], ?_, (List.append_nil _).symm, hamem, by simp,
          fun _ => ⟨rfl, rfl⟩⟩
        apply runLog_of_calls
        rw [sync_main env m p hp hd hs, hok, ha]
        simp
      · refine ⟨a, pre ++ [c],
          if (ensureCEGUIInitialized env m).initialized then purgeCalls else [], t,
          ?_, by simp [hcs], hamem, ?_, ?_⟩
        · apply runLog_of_calls
          rw [sync_main env m p hp hd hs, herr, ha]
          split_ifs <;> simp
        · intro c hc
          split_ifs at hc
          · exact hc
          · simp at hc
        · intro htrue
          rw [sync_main env m p hp hd hs, herr] at htrue
          simp at htrue

theorem count_le_of_runLog_shape (c : Call) (a pre b t cs : List Call) (paths : List Call)
    (hcs : cs = pre ++ t)
    (ha : ∀ x ∈ a, x ∈ purgeCalls ∨ x ∈ paths) (hb : ∀ x ∈ b, x ∈ purgeCalls)
    (hc1 : c ∉ purgeCalls) (hc2 : c ∉ paths) :
    (a ++ pre ++ b).count c ≤ cs.count c := by
  have h1 : a.count c = 0 := List.count_eq_zero.2 (fun h => (ha c h).elim hc1 hc2)
  have h2 : b.count c = 0 := List.count_eq_zero.2 (fun h => hc1 (hb c h))
  rw [hcs]
  simp only [List.count_append, h1, h2]
  omega

theorem count_eq_of_runLog_shape (c : Call) (a pre cs : List Call) (paths : List Call)
    (hcs : cs = pre ++ [])
    (ha : ∀ x ∈ a, x ∈ purgeCalls ∨ x ∈ paths)
    (hc1 : c ∉ purgeCalls) (hc2 : c ∉ paths) :
    (a ++ pre ++ []).count c = cs.count c := by
  have h1 : a.count c = 0 := List.count_eq_zero.2 (fun h => (ha c h).elim hc1 hc2)
  rw [hcs]
  simp only [List.count_append, h1, List.count_nil]
  omega

theorem mkImageset_injective :
    Function.Injective (fun e : LoadableUIElement => Call.loadImageset e.filename e.resourceGroup) := by
  rintro ⟨f1, g1⟩ ⟨f2, g2⟩ h
  simpa using h

theorem mkFont_injective :
    Function.Injective
      (fun e : LoadableUIElement => Call.fontCreateFromFile e.filename e.resourceGroup) := by
  rintro ⟨f1, g1⟩ ⟨f2, g2⟩ h
  simpa using h

theorem mkLookNFeel_injective :
    Function.Injective (fun e : LoadableUIElement =>
      Call.parseLookNFeelSpecificationFromFile e.filename e.resourceGroup) := by
  rintro ⟨f1, g1⟩ ⟨f2, g2⟩ h
  simpa using h

theorem count_map_eq_zero (c : Call) (g : LoadableUIElement → Call)
    (xs : List LoadableUIElement) (h : ∀ x, g x ≠ c) : (xs.map g).count c = 0 := by
  refine List.count_eq_zero.2 ?_
  intro hmem
  obtain ⟨x, _, hx⟩ := List.mem_map.1 hmem
  exact h x hx

theorem count_imageset_allSchemeCalls (env : CeguiEnv) (e : LoadableUIElement)
    (fs : List String) :
    (allSchemeCalls env fs).count (Call.loadImageset e.filename e.resourceGroup)
      = (listed env Scheme.xmlImagesets fs).count e := by
  induction fs with
  | nil => rfl
  | cons f fs ih =>
    have hinj := List.count_map_of_injective (env.scheme f).xmlImagesets _
      mkImageset_injective e
    simp only at hinj
    simp only [allSchemeCalls, listed, schemeCalls, List.count_append, ih, hinj]
    rw [count_map_eq_zero _ _ _ (by intro x; simp), count_map_eq_zero _ _ _ (by intro x; simp)]
    simp [List.count_cons]

theorem count_font_allSchemeCalls (env : CeguiEnv) (e : LoadableUIElement)
    (fs : List String) :
    (allSchemeCalls env fs).count (Call.fontCreateFromFile e.filename e.resourceGroup)
      = (listed env Scheme.fonts fs).count e := by
  induction fs with
  | nil => rfl
  | cons f fs ih =>
    have hinj := List.count_map_of_injective (env.scheme f).fonts _ mkFont_injective e
    simp only at hinj
    simp only [allSchemeCalls, listed, schemeCalls, List.count_append, ih, hinj]
    rw [count_map_eq_zero _ _ _ (by intro x; simp), count_map_eq_zero _ _ _ (by intro x; simp)]
    simp [List.count_cons]

theorem count_lookNFeel_allSchemeCalls (env : CeguiEnv) (e : LoadableUIElement)
    (fs : List String) :
    (allSchemeCalls env fs).count
        (Call.parseLookNFeelSpecificationFromFile e.filename e.resourceGroup)
      = (listed env Scheme.lookNFeels fs).count e := by
  induction fs with
  | nil => rfl
  | cons f fs ih =>
    have hinj := List.count_map_of_injective (env.scheme f).lookNFeels _
      mkLookNFeel_injective e
    simp only at hinj
    simp only [allSchemeCalls, listed, schemeCalls, List.count_append, ih, hinj]
    rw [count_map_eq_zero _ _ _ (by intro x; simp), count_map_eq_zero _ _ _ (by intro x; simp)]
    simp [List.count_cons]

/-- C2 as stated fails: two scheme files that list the same font make one run
request that font twice, although no call throws and the run returns `true`. -/
theorem sync_requests_shared_font_twice :
    (syncProjectToCEGUIInstance sampleEnv sampleManager).1 = true ∧
    (runLog sampleEnv sampleManager).count
      (Call.fontCreateFromFile "DejaVuSans-10.font" "") = 2 := by
  decide

/-- C2, amended. In one run no XML imageset, font or look-and-feel (identified by
file name and resource group) is requested to load more often than the scheme
files of the run list it; and in a run that returns `true` each one is requested
exactly as often as the scheme files list it. -/
theorem sync_requests_at_most_as_listed (env : CeguiEnv) (m : CEGUIManager)
    (p : CEGUIProject) (hp : m.currentProject = some p) (e : LoadableUIElement) :
    ((runLog env m).count (Call.loadImageset e.filename e.resourceGroup)
        ≤ (listed env Scheme.xmlImagesets (collectSchemeFiles p.schemesDirEntries)).count e ∧
      (runLog env m).count (Call.fontCreateFromFile e.filename e.resourceGroup)
        ≤ (listed env Scheme.fonts (collectSchemeFiles p.schemesDirEntries)).count e ∧
      (runLog env m).count
          (Call.parseLookNFeelSpecificationFromFile e.filename e.resourceGroup)
        ≤ (listed env Scheme.lookNFeels (collectSchemeFiles p.schemesDirEntries)).count e) ∧
    ((syncProjectToCEGUIInstance env m).1 = true →
      (runLog env m).count (Call.loadImageset e.filename e.resourceGroup)
        = (listed env Scheme.xmlImagesets (collectSchemeFiles p.schemesDirEntries)).count e ∧
      (runLog env m).count (Call.fontCreateFromFile e.filename e.resourceGroup)
        = (listed env Scheme.fonts (collectSchemeFiles p.schemesDirEntries)).count e ∧
      (runLog env m).count
          (Call.parseLookNFeelSpecificationFromFile e.filename e.resourceGroup)
        = (listed env Scheme.lookNFeels (collectSchemeFiles p.schemesDirEntries)).count e) := by
  obtain ⟨a, pre, b, t, hlog, hcs, ha, hb, htrue⟩ := runLog_shape env m p hp
  rw [← count_imageset_allSchemeCalls, ← count_font_allSchemeCalls,
    ← count_lookNFeel_allSchemeCalls]
  constructor
  · rw [hlog]
    refine ⟨?_, ?_, ?_⟩ <;>
      exact count_le_of_runLog_shape _ a pre b t _
        (resourcePathCalls p ++ defaultPathCalls env) hcs ha hb
        (by simp [purgeCalls]) (by simp [resourcePathCalls, defaultPathCalls])
  · intro h
    obtain ⟨hb0, ht0⟩ := htrue h
    subst hb0 ht0
    rw [hlog]
    refine ⟨?_, ?_, ?_⟩ <;>
      exact count_eq_of_runLog_shape _ a pre _
        (resourcePathCalls p ++ defaultPathCalls env) hcs ha
        (by simp [purgeCalls]) (by simp [resourcePathCalls, defaultPathCalls])

/-- C2 amended, at the sample project.  In the run that returns `true` the font
that both scheme files list is requested twice, once per listing.  In the run
with a failing imageset the same font is requested once and the look-and-feel
of the second scheme, listed once, is not requested. -/
theorem sync_requests_at_most_as_listed_witness :
    ((runLog sampleEnv sampleManager).count
        (Call.fontCreateFromFile "DejaVuSans-10.font" "")
      = (listed sampleEnv Scheme.fonts
          (collectSchemeFiles sampleProject.schemesDirEntries)).count
          ⟨"DejaVuSans-10.font", ""⟩ ∧
      (listed sampleEnv Scheme.fonts
          (collectSchemeFiles sampleProject.schemesDirEntries)).count
          ⟨"DejaVuSans-10.font", ""⟩ = 2) ∧
    ((runLog failingEnv sampleManager).count
        (Call.fontCreateFromFile "DejaVuSans-10.font" "")
      ≤ (listed failingEnv Scheme.fonts
          (collectSchemeFiles sampleProject.schemesDirEntries)).count
          ⟨"DejaVuSans-10.font", ""⟩ ∧
      (runLog failingEnv sampleManager).count
        (Call.fontCreateFromFile "DejaVuSans-10.font" "") = 1 ∧
      (runLog failingEnv sampleManager).count
        (Call.parseLookNFeelSpecificationFromFile "Vanilla.looknfeel" "") = 0) :=
  ⟨⟨((sync_requests_at_most_as_listed sampleEnv sampleManager sampleProject rfl
        ⟨"DejaVuSans-10.font", ""⟩).2 (by decide)).2.1, by decide⟩,
   ⟨(sync_requests_at_most_as_listed failingEnv sampleManager sampleProject rfl
        ⟨"DejaVuSans-10.font", ""⟩).1.2.1, by decide, by decide⟩⟩

/-- C3. For a loaded project that passes both directory checks, with CEGUI
initialised after the boot: the routine returns `false` exactly when some
scheme-loading call throws; in that case the log ends with the throwing call
followed by the full purge (windows, dead pool, fonts, images, schemes, widget
looks, animations, falagard mappings, window type aliases, factories, the stock
factories put back, textures); and it returns `true` when no call throws.  The
log at the entry of the `try` block is the log before the run, the default
directories of a first boot, the purge and the project paths. -/
theorem sync_false_iff_load_exception (env : CeguiEnv) (m : CEGUIManager)
    (p : CEGUIProject)
    (hp : m.currentProject = some p) (hd : p.checkAllDirectories = true)
    (hs : p.schemesDirExists = true)
    (hinit : (ensureCEGUIInitialized env m).initialized = true) :
    ((syncProjectToCEGUIInstance env m).1 = false ↔
      SomeLoadFailure env (logAtTry env m p)
        (allSchemeCalls env (collectSchemeFiles p.schemesDirEntries))) ∧
    ((syncProjectToCEGUIInstance env m).1 = false →
      ∃ pre c t,
        allSchemeCalls env (collectSchemeFiles p.schemesDirEntries) = pre ++ c :: t ∧
        env.throws (logAtTry env m p ++ pre) c = true ∧
        (syncProjectToCEGUIInstance env m).2.calls
          = logAtTry env m p ++ pre ++ [c]
            ++ [ Call.destroyAllWindows,
                Call.cleanDeadPool,
                Call.fontDestroyAll,
                Call.imageDestroyAll,
                Call.schemeDestroyAll,
                Call.eraseAllWidgetLooks,
                Call.destroyAllAnimations,
                Call.removeAllFalagardWindowMappings,
                Call.removeAllWindowTypeAliases,
                Call.removeAllFactories,
                Call.addStandardWindowFactories,
                Call.destroyAllTextures ]) ∧
    (NoLoadFailure env (logAtTry env m p)
        (allSchemeCalls env (collectSchemeFiles p.schemesDirEntries)) →
      (syncProjectToCEGUIInstance env m).1 = true) ∧
    logAtTry env m p =
      m.calls
        ++ (if m.initialized then []
            else if env.defaultResourceProvider then
              [ Call.setResourceGroupDirectory "imagesets" (env.datafilesFilePath "imagesets"),
                Call.setResourceGroupDirectory "fonts" (env.datafilesFilePath "fonts"),
                Call.setResourceGroupDirectory "schemes" (env.datafilesFilePath "schemes"),
                Call.setResourceGroupDirectory "looknfeels" (env.datafilesFilePath "looknfeel"),
                Call.setResourceGroupDirectory "layouts" (env.datafilesFilePath "layouts"),
                Call.setResourceGroupDirectory "xml_schemas" (env.datafilesFilePath "xml_schemas") ]
            else [])
        ++ [ Call.destroyAllWindows,
          Call.cleanDeadPool,
          Call.fontDestroyAll,
          Call.imageDestroyAll,
          Call.schemeDestroyAll,
          Call.eraseAllWidgetLooks,
          Call.destroyAllAnimations,
          Call.removeAllFalagardWindowMappings,
          Call.removeAllWindowTypeAliases,
          Call.removeAllFactories,
          Call.addStandardWindowFactories,
          Call.destroyAllTextures ]
        ++ (if env.defaultResourceProvider then
              [ Call.setResourceGroupDirectory "imagesets" p.imagesetsPath,
                Call.setResourceGroupDirectory "fonts" p.fontsPath,
                Call.setResourceGroupDirectory "schemes" p.schemesPath,
                Call.setResourceGroupDirectory "looknfeels" p.looknfeelsPath,
                Call.setResourceGroupDirectory "layouts" p.layoutsPath,
                Call.setResourceGroupDirectory "xml_schemas" p.xmlSchemasPath ]
            else []) := by
  refine ⟨?_, ?_, ?_, ?_⟩
  · rw [sync_main env m p hp hd hs]
    rcases runCalls_cases env (allSchemeCalls env (collectSchemeFiles p.schemesDirEntries))
      (logAtTry env m p) with ⟨hno, hok⟩ | ⟨pre, c, t, hcs, hthrow, herr⟩
    · have hnot := not_someLoadFailure_of_noLoadFailure env _ _ hno
      rw [hok]
      exact ⟨fun h => absurd h (by simp), fun h => absurd h hnot⟩
    · rw [herr]
      exact ⟨fun _ => ⟨pre, c, t, hcs, hthrow⟩, fun _ => rfl⟩
  · rw [sync_main env m p hp hd hs]
    rcases runCalls_cases env (allSchemeCalls env (collectSchemeFiles p.schemesDirEntries))
      (logAtTry env m p) with ⟨_, hok⟩ | ⟨pre, c, t, hcs, hthrow, herr⟩
    · rw [hok]
      exact fun h => absurd h (by simp)
    · rw [herr]
      refine fun _ => ⟨pre, c, t, hcs, hthrow, ?_⟩
      simp [hinit, purgeCalls]
  · intro hno
    rw [sync_main env m p hp hd hs, runCalls_ok_of_noLoadFailure env _ _ hno]
  · rw [logAtTry_eq env m p hinit]
    rfl

/-- C3 at the first synchronisation of the sample project with a failing
imageset: the result is `false` and the log is the boot, the purge, the project
paths, the first scheme, the second scheme up to its imageset, and the purge. -/
theorem sync_false_iff_load_exception_witness :
    (syncProjectToCEGUIInstance failingEnv sampleManager).1 = false ∧
    (∃ pre c t,
      allSchemeCalls failingEnv (collectSchemeFiles sampleProject.schemesDirEntries)
        = pre ++ c :: t ∧
      failingEnv.throws (logAtTry failingEnv sampleManager sampleProject ++ pre) c = true ∧
      (syncProjectToCEGUIInstance failingEnv sampleManager).2.calls
        = logAtTry failingEnv sampleManager sampleProject ++ pre ++ [c]
          ++ [ Call.destroyAllWindows,
              Call.cleanDeadPool,
              Call.fontDestroyAll,
              Call.imageDestroyAll,
              Call.schemeDestroyAll,
              Call.eraseAllWidgetLooks,
              Call.destroyAllAnimations,
              Call.removeAllFalagardWindowMappings,
              Call.removeAllWindowTypeAliases,
              Call.removeAllFactories,
              Call.addStandardWindowFactories,
              Call.destroyAllTextures ]) ∧
    (syncProjectToCEGUIInstance failingEnv sampleManager).2.calls =
      [ Call.setResourceGroupDirectory "imagesets" "/opt/ceed/datafiles/imagesets",
        Call.setResourceGroupDirectory "fonts" "/opt/ceed/datafiles/fonts",
        Call.setResourceGroupDirectory "schemes" "/opt/ceed/datafiles/schemes",
        Call.setResourceGroupDirectory "looknfeels" "/opt/ceed/datafiles/looknfeel",
        Call.setResourceGroupDirectory "layouts" "/opt/ceed/datafiles/layouts",
        Call.setResourceGroupDirectory "xml_schemas" "/opt/ceed/datafiles/xml_schemas" ]
      ++ [ Call.destroyAllWindows,
        Call.cleanDeadPool,
        Call.fontDestroyAll,
        Call.imageDestroyAll,
        Call.schemeDestroyAll,
        Call.eraseAllWidgetLooks,
        Call.destroyAllAnimations,
        Call.removeAllFalagardWindowMappings,
        Call.removeAllWindowTypeAliases,
        Call.removeAllFactories,
        Call.addStandardWindowFactories,
        Call.destroyAllTextures ]
      ++ [ Call.setResourceGroupDirectory "imagesets" "/proj/imagesets",
        Call.setResourceGroupDirectory "fonts" "/proj/fonts",
        Call.setResourceGroupDirectory "schemes" "/proj/schemes",
        Call.setResourceGroupDirectory "looknfeels" "/proj/looknfeel",
        Call.setResourceGroupDirectory "layouts" "/proj/layouts",
        Call.setResourceGroupDirectory "xml_schemas" "/proj/xml_schemas" ]
      ++ [ Call.schemeCreateFromFile "TaharezLook.scheme",
        Call.loadImageset "TaharezLook.imageset" "",
        Call.loadImageFileImagesets "TaharezLook.scheme",
        Call.fontCreateFromFile "DejaVuSans-10.font" "",
        Call.parseLookNFeelSpecificationFromFile "TaharezLook.looknfeel" "",
        Call.loadWindowRendererFactories "TaharezLook.scheme",
        Call.loadWindowFactories "TaharezLook.scheme",
        Call.loadFactoryAliases "TaharezLook.scheme",
        Call.loadFalagardMappings "TaharezLook.scheme" ]
      ++ [ Call.schemeCreateFromFile "VanillaSkin.scheme",
        Call.loadImageset "Vanilla.imageset" "" ]
      ++ [ Call.destroyAllWindows,
        Call.cleanDeadPool,
        Call.fontDestroyAll,
        Call.imageDestroyAll,
        Call.schemeDestroyAll,
        Call.eraseAllWidgetLooks,
        Call.destroyAllAnimations,
        Call.removeAllFalagardWindowMappings,
        Call.removeAllWindowTypeAliases,
        Call.removeAllFactories,
        Call.addStandardWindowFactories,
        Call.destroyAllTextures ] :=
  ⟨by decide,
    (sync_false_iff_load_exception failingEnv sampleManager sampleProject
      rfl rfl rfl rfl).2.1 (by decide),
    by decide⟩

/-- C4. On every path on which the routine returns, the scheme manager's
auto-load flag is `true` afterwards if it was `true` when the call began. -/
theorem sync_keeps_autoLoadResources (env : CeguiEnv) (m : CEGUIManager)
    (h : m.autoLoadResources = true) :
    (syncProjectToCEGUIInstance env m).2.autoLoadResources = true := by
  unfold syncProjectToCEGUIInstance
  cases hp : m.currentProject with
  | none =>
    simp only [cleanCEGUIResources]
    split_ifs <;> simpa using h
  | some p =>
    simp only
    split_ifs
    · exact h
    · rw [ensureCEGUIInitialized_autoLoad]; exact h
    · split <;> rfl
    · split <;> rfl

/-- C4 on the three kinds of return: success, load exception, early return. -/
theorem sync_keeps_autoLoadResources_witness :
    (syncProjectToCEGUIInstance sampleEnv sampleManager).2.autoLoadResources = true ∧
    (syncProjectToCEGUIInstance failingEnv sampleManager).2.autoLoadResources = true ∧
    (syncProjectToCEGUIInstance sampleEnv
      { sampleManager with currentProject := none }).2.autoLoadResources = true :=
  ⟨sync_keeps_autoLoadResources sampleEnv sampleManager rfl,
   sync_keeps_autoLoadResources failingEnv sampleManager rfl,
   sync_keeps_autoLoadResources sampleEnv _ rfl⟩

/-! ## Version numbers -/

theorem normalized_append_zero (v : QVersionNumber) :
    QVersionNumber.normalized (v ++ [0]) = QVersionNumber.normalized v := by
  simp [QVersionNumber.normalized, List.dropWhile_cons]

theorem normalized_append_nonzero (v : QVersionNumber) (a : Nat) (ha : a ≠ 0) :
    QVersionNumber.normalized (v ++ [a]) = v ++ [a] := by
  simp [QVersionNumber.normalized, List.dropWhile_cons, ha]

theorem compare_pos_iff (a b : QVersionNumber) :
    0 < QVersionNumber.compare a b ↔ List.Lex (fun x y => x < y) b a := by
  induction a generalizing b with
  | nil =>
    cases b with
    | nil => simp [QVersionNumber.compare]
    | cons y ys =>
      simp only [QVersionNumber.compare]
      constructor
      · intro h; split_ifs at h <;> omega
      · intro h; cases h
  | cons x xs ih =>
    cases b with
    | nil =>
      simp only [QVersionNumber.compare]
      constructor
      · intro _; exact List.Lex.nil
      · intro _; split_ifs <;> omega
    | cons y ys =>
      simp only [QVersionNumber.compare]
      by_cases hxy : x = y
      · subst hxy
        simp only [ne_eq, not_true_eq_false, if_false, ih ys]
        exact List.Lex.cons_iff.symm
      · simp only [ne_eq, hxy, not_false_eq_true, if_true]
        constructor
        · intro h
          exact List.Lex.rel (by omega)
        · intro h
          cases h with
          | cons h => exact absurd rfl hxy
          | rel h => omega

theorem compare_eq_zero_iff (a b : QVersionNumber) :
    QVersionNumber.compare a b = 0 ↔ a = b := by
  induction a generalizing b with
  | nil =>
    cases b with
    | nil => simp [QVersionNumber.compare]
    | cons y ys =>
      simp only [QVersionNumber.compare]
      constructor
      · intro h; split_ifs at h; omega
      · intro h; cases h
  | cons x xs ih =>
    cases b with
    | nil =>
      simp only [QVersionNumber.compare]
      constructor
      · intro h; split_ifs at h <;> omega
      · intro h; cases h
    | cons y ys =>
      simp only [QVersionNumber.compare]
      by_cases hxy : x = y
      · subst hxy
        simp [ih ys]
      · simp only [ne_eq, hxy, not_false_eq_true, if_true, List.cons.injEq, false_and, iff_false]
        omega

theorem compare_neg_iff (a b : QVersionNumber) :
    QVersionNumber.compare a b < 0 ↔ List.Lex (fun x y => x < y) a b := by
  induction a generalizing b with
  | nil =>
    cases b with
    | nil => simp [QVersionNumber.compare]
    | cons y ys =>
      simp only [QVersionNumber.compare]
      constructor
      · intro _; exact List.Lex.nil
      · intro _; split_ifs <;> omega
  | cons x xs ih =>
    cases b with
    | nil =>
      simp only [QVersionNumber.compare]
      constructor
      · intro h; split_ifs at h <;> omega
      · intro h; cases h
    | cons y ys =>
      simp only [QVersionNumber.compare]
      by_cases hxy : x = y
      · subst hxy
        simp only [ne_eq, not_true_eq_false, if_false, ih ys]
        exact List.Lex.cons_iff.symm
      · simp only [ne_eq, hxy, not_false_eq_true, if_true]
        constructor
        · intro h
          exact List.Lex.rel (by omega)
        · intro h
          cases h with
          | cons h => exact absurd rfl hxy
          | rel h => omega

theorem lookup_filter_ne (q : QSettings) (k k' : String) (h : k' ≠ k) :
    (q.filter (fun kv => kv.1 != k)).lookup k' = q.lookup k' := by
  induction q with
  | nil => rfl
  | cons kv q ih =>
    obtain ⟨a, v⟩ := kv
    by_cases hak : a = k
    · subst hak
      have hne : (k' == a) = false := by simpa using h
      simp [List.filter_cons, List.lookup_cons, hne, ih]
    · have hfil : (a != k) = true := by simpa using hak
      simp only [List.filter_cons, hfil, if_true, List.lookup_cons, ih]

theorem value_setValue_ne (q : QSettings) (k k' : String) (v : QVariant) (h : k' ≠ k) :
    (q.setValue k v).value k' = q.value k' := by
  have hne : (k' == k) = false := by simpa using h
  simp [QSettings.setValue, QSettings.value, List.lookup_cons, hne, lookup_filter_ne q k k' h]

theorem valueD_setValue_ne (q : QSettings) (k k' : String) (v d : QVariant) (h : k' ≠ k) :
    (q.setValue k v).valueD k' d = q.valueD k' d := by
  have hne : (k' == k) = false := by simpa using h
  simp [QSettings.setValue, QSettings.valueD, List.lookup_cons, hne, lookup_filter_ne q k k' h]

theorem value_setValue_self (q : QSettings) (k : String) (v : QVariant) :
    (q.setValue k v).value k = v := by
  simp [QSettings.setValue, QSettings.value, List.lookup_cons]

theorem group_remove (q : QSettings) (g : String) : (q.remove g).group g = [] := by
  simp [QSettings.remove, QSettings.group, List.filter_filter]

/-! ## The three ways through `checkForUpdates` -/

theorem checkForUpdates_offline (env : UpdateEnv) (manual cb : Bool) (s : AppState)
    (h : env.internetConnected = false) :
    checkForUpdates env manual cb s =
      invokeCallback cb
        (s.emit (.logCritical "No Internet connection, update check skipped")) := by
  simp [checkForUpdates, h]

theorem checkForUpdates_skipped (env : UpdateEnv) (cb : Bool) (s : AppState)
    (hnet : env.internetConnected = true) (hskip : skippedBySettings env s = true) :
    checkForUpdates env false cb s = invokeCallback cb s := by
  simp [checkForUpdates, hnet, hskip]

theorem checkForUpdates_request (env : UpdateEnv) (manual cb : Bool) (s : AppState)
    (hnet : env.internetConnected = true)
    (hgo : manual = true ∨ skippedBySettings env s = false) :
    checkForUpdates env manual cb s =
      deliverReply env manual cb (infoUrlOf (sendRequest env s).settings)
        (sendRequest env s) := by
  rcases hgo with h | h <;> simp [checkForUpdates, hnet, h]

theorem sendRequest_settings (env : UpdateEnv) (s : AppState) :
    (sendRequest env s).settings =
      s.settings.setValue "update/lastTimestamp" (QVariant.ofLongLong env.currTime) := rfl

theorem infoUrlOf_sendRequest (env : UpdateEnv) (s : AppState) :
    infoUrlOf (sendRequest env s).settings = infoUrlOf s.settings := by
  rw [sendRequest_settings]
  unfold infoUrlOf
  rw [valueD_setValue_ne s.settings "update/lastTimestamp" "update/url" _ _ (by decide)]

theorem sendRequest_events (env : UpdateEnv) (s : AppState) :
    (sendRequest env s).events =
      s.events ++ [.setStatusMessage .checkingForUpdates, .networkGet (infoUrlOf s.settings)] := by
  have h := infoUrlOf_sendRequest env s
  simp only [sendRequest_settings] at h
  simp [sendRequest, AppState.emit, h]

/-! ## The reply handlers -/

theorem invokeCallback_events (cb : Bool) (s : AppState) :
    (invokeCallback cb s).events = s.events ++ callbackEvents cb := by
  cases cb <;> simp [invokeCallback, callbackEvents, AppState.emit]

theorem invokeCallback_settings (cb : Bool) (s : AppState) :
    (invokeCallback cb s).settings = s.settings := by
  cases cb <;> rfl

theorem onUpdateError_events (env : UpdateEnv) (url err : String) (s : AppState) :
    (onUpdateError env url err s).events =
      s.events ++ [.setStatusMessage .failedToCheck,
        .logCritical ("Update error: '" ++ err ++ "' accessing " ++ url),
        .askUpdateCheckFailed err]
        ++ (if env.openReleasesPageAnswer then [.openReleasesPage] else []) := by
  cases h : env.openReleasesPageAnswer <;> simp [onUpdateError, AppState.emit, h]

theorem onUpdateError_settings (env : UpdateEnv) (url err : String) (s : AppState) :
    (onUpdateError env url err s).settings = s.settings := by
  cases h : env.openReleasesPageAnswer <;> simp [onUpdateError, AppState.emit, h]

theorem deliverReply_releaseInfo (env : UpdateEnv) (manual cb : Bool) (url tag : String)
    (s : AppState) (hreply : env.reply = .releaseInfo tag) :
    deliverReply env manual cb url s = onFinishedNoError env manual cb url tag s := by
  simp [deliverReply, onFinished, hreply]

theorem deliverReply_networkError (env : UpdateEnv) (manual cb : Bool) (url err : String)
    (s : AppState) (hreply : env.reply = .networkError err) :
    deliverReply env manual cb url s =
      invokeCallback cb (invokeCallback cb (onUpdateError env url err s)) := by
  simp [deliverReply, onFinished, onErrorOccurred, hreply]

/-- A greater release that equals the version whose update failed: blocked. -/
theorem onFinishedNoError_blocked (env : UpdateEnv) (manual cb : Bool) (url tag : String)
    (s : AppState) (h : (stripLeadingV tag).isEmpty = false)
    (hgt : 0 < QVersionNumber.compare (env.fromString (stripLeadingV tag)).normalized
      (env.fromString applicationVersion).normalized)
    (hfailed : (s.settings.value "update/failed").toBool = true)
    (heq : (env.fromString (stripLeadingV tag)).normalized =
      (env.fromString (s.settings.value "update/version").toString).normalized) :
    onFinishedNoError env manual cb url tag s =
      invokeCallback cb
        (if manual then
          (s.emit (.setStatusMessage (.autoUpdateBlocked (stripLeadingV tag)))).emit
            (.warnAutoUpdateBlocked (stripLeadingV tag))
         else s.emit (.setStatusMessage (.autoUpdateBlocked (stripLeadingV tag)))) := by
  have h0 := (compare_eq_zero_iff _ _).2 heq
  simp only [onFinishedNoError, h, Bool.false_eq_true, if_false, gt_iff_lt, hgt, if_true,
    hfailed, h0]

theorem count_callback_invokeCallback (s : AppState) :
    (invokeCallback true s).events.count Event.callback = s.events.count Event.callback + 1 := by
  simp [invokeCallback, AppState.emit, List.count_append]

theorem count_callback_onUpdateError (env : UpdateEnv) (url err : String) (s : AppState) :
    (onUpdateError env url err s).events.count Event.callback
      = s.events.count Event.callback := by
  rw [onUpdateError_events]
  cases env.openReleasesPageAnswer <;> simp [List.count_append, List.count_cons]

theorem count_callback_onFinishedNoError (env : UpdateEnv) (manual : Bool) (url tag : String)
    (s : AppState) :
    (onFinishedNoError env manual true url tag s).events.count Event.callback
      = s.events.count Event.callback + 1 := by
  unfold onFinishedNoError
  simp only
  split_ifs <;>
    simp [count_callback_invokeCallback, count_callback_onUpdateError, AppState.emit,
      List.count_append, List.count_cons]

/-- With a non-empty callback, every way through `checkForUpdates` invokes it
once, except a network error on the reply, which invokes it twice. -/
theorem checkForUpdates_callback_count (env : UpdateEnv) (manual : Bool) (s : AppState) :
    (checkForUpdates env manual true s).events.count Event.callback =
      s.events.count Event.callback +
        (match env.reply with
         | .networkError _ =>
           if env.internetConnected && (manual || !skippedBySettings env s) then 2 else 1
         | .releaseInfo _ => 1) := by
  cases hnet : env.internetConnected with
  | false =>
    rw [checkForUpdates_offline env manual true s hnet, count_callback_invokeCallback]
    cases env.reply <;> simp [AppState.emit, List.count_append, List.count_cons]
  | true =>
    by_cases hgo : manual = true ∨ skippedBySettings env s = false
    · rw [checkForUpdates_request env manual true s hnet hgo]
      have hcount : (sendRequest env s).events.count Event.callback
          = s.events.count Event.callback := by
        rw [sendRequest_events]
        simp [List.count_append, List.count_cons]
      have hb : (manual || !skippedBySettings env s) = true := by
        rcases hgo with h | h <;> simp [h]
      cases hreply : env.reply with
      | networkError err =>
        rw [deliverReply_networkError env manual true _ err _ hreply,
          count_callback_invokeCallback, count_callback_invokeCallback,
          count_callback_onUpdateError, hcount]
        simp [hb]
      | releaseInfo tag =>
        rw [deliverReply_releaseInfo env manual true _ tag _ hreply,
          count_callback_onFinishedNoError, hcount]
    · have hm : manual = false := by
        cases manual
        · rfl
        · exact absurd (Or.inl rfl) hgo
      have hs : skippedBySettings env s = true := by
        cases h : skippedBySettings env s
        · exact absurd (Or.inr h) hgo
        · rfl
      subst hm
      rw [checkForUpdates_skipped env true s hnet hs, count_callback_invokeCallback]
      cases env.reply <;> simp [hs]

/-- C5 fails on the code: when the reply ends in a network error, the handler of
`errorOccurred` invokes the callback and the handler of `finished` invokes it
again, so the callback runs twice. -/
theorem checkForUpdates_network_error_invokes_callback_twice :
    (checkForUpdates networkErrorEnv false true failedUpdateState).events =
      [ .setStatusMessage .checkingForUpdates,
        .networkGet "https://api.github.com/repos/cegui/ceed-cpp/releases/latest",
        .setStatusMessage .failedToCheck,
        .logCritical ("Update error: 'Host not found' accessing "
          ++ "https://api.github.com/repos/cegui/ceed-cpp/releases/latest"),
        .askUpdateCheckFailed "Host not found",
        .callback,
        .callback ] ∧
    (checkForUpdates networkErrorEnv false true failedUpdateState).events.count
      Event.callback = 2 := by
  decide

/-- C6 fails on the code: a manual check that finds the release whose update
failed before puts up the blocked notice (with a warning box), runs no update
dialog and leaves `update/failed` set. -/
theorem manual_check_stays_blocked :
    (checkForUpdates sampleUpdateEnv true true failedUpdateState).events =
      [ .setStatusMessage .checkingForUpdates,
        .networkGet "https://api.github.com/repos/cegui/ceed-cpp/releases/latest",
        .setStatusMessage (.autoUpdateBlocked "1.2.0"),
        .warnAutoUpdateBlocked "1.2.0",
        .callback ] ∧
    ((checkForUpdates sampleUpdateEnv true true failedUpdateState).settings.value
      "update/failed").toBool = true := by
  decide

/-! ## A failed update on record -/

theorem wrapInt64_of_fits (x : Int) (h1 : -2 ^ 63 ≤ x) (h2 : x < 2 ^ 63) : wrapInt64 x = x := by
  unfold wrapInt64
  omega

theorem skippedBySettings_iff (env : UpdateEnv) (s : AppState)
    (h1 : -2 ^ 63 ≤ env.currTime
      - (s.settings.valueD "update/lastTimestamp" (QVariant.ofLongLong 0)).toLongLong)
    (h2 : env.currTime
      - (s.settings.valueD "update/lastTimestamp" (QVariant.ofLongLong 0)).toLongLong < 2 ^ 63) :
    skippedBySettings env s = true ↔
      (env.updateCheckFrequencySec < 0 ∨
        env.currTime
          - (s.settings.valueD "update/lastTimestamp" (QVariant.ofLongLong 0)).toLongLong
          < env.updateCheckFrequencySec) := by
  unfold skippedBySettings
  simp only [wrapInt64_of_fits _ h1 h2]
  split_ifs with hneg
  · simp [hneg]
  · simp [hneg]

/-- C8. With Internet available and the 64-bit difference `currTime -
lastTimestamp` free of overflow: an automatic check whose frequency is negative,
or for which less than the frequency has passed since `update/lastTimestamp`,
makes no request and leaves the settings as they are; any other automatic check,
and every manual check, stores the current time in `update/lastTimestamp`, sends
the request and goes on with the reply. -/
theorem checkForUpdates_honors_settings (env : UpdateEnv) (cb : Bool) (s : AppState)
    (hnet : env.internetConnected = true)
    (h1 : -2 ^ 63 ≤ env.currTime
      - (s.settings.valueD "update/lastTimestamp" (QVariant.ofLongLong 0)).toLongLong)
    (h2 : env.currTime
      - (s.settings.valueD "update/lastTimestamp" (QVariant.ofLongLong 0)).toLongLong < 2 ^ 63) :
    ((env.updateCheckFrequencySec < 0 ∨
        env.currTime
          - (s.settings.valueD "update/lastTimestamp" (QVariant.ofLongLong 0)).toLongLong
          < env.updateCheckFrequencySec) →
      (checkForUpdates env false cb s).settings = s.settings ∧
      (checkForUpdates env false cb s).events = s.events ++ callbackEvents cb) ∧
    (¬ (env.updateCheckFrequencySec < 0 ∨
        env.currTime
          - (s.settings.valueD "update/lastTimestamp" (QVariant.ofLongLong 0)).toLongLong
          < env.updateCheckFrequencySec) →
      checkForUpdates env false cb s =
        deliverReply env false cb (infoUrlOf s.settings) (sendRequest env s)) ∧
    (checkForUpdates env true cb s =
        deliverReply env true cb (infoUrlOf s.settings) (sendRequest env s)) ∧
    ((sendRequest env s).settings.value "update/lastTimestamp"
        = QVariant.ofLongLong env.currTime ∧
      (sendRequest env s).events =
        s.events ++ [ .setStatusMessage .checkingForUpdates,
          .networkGet (infoUrlOf s.settings) ]) := by
  refine ⟨?_, ?_, ?_, ?_, sendRequest_events env s⟩
  · intro hcond
    have hskip := (skippedBySettings_iff env s h1 h2).2 hcond
    rw [checkForUpdates_skipped env cb s hnet hskip]
    exact ⟨invokeCallback_settings cb s, invokeCallback_events cb s⟩
  · intro hcond
    have hskip : skippedBySettings env s = false := by
      cases h : skippedBySettings env s
      · rfl
      · exact absurd ((skippedBySettings_iff env s h1 h2).1 h) hcond
    rw [checkForUpdates_request env false cb s hnet (Or.inr hskip), infoUrlOf_sendRequest]
  · rw [checkForUpdates_request env true cb s hnet (Or.inl rfl), infoUrlOf_sendRequest]
  · rw [sendRequest_settings]
    exact value_setValue_self _ _ _

/-- C8 at a weekly frequency, one day after the last check: nothing is sent and
the settings stay. -/
theorem checkForUpdates_honors_settings_witness :
    (checkForUpdates { sampleUpdateEnv with
        currTime := 1800086400, updateCheckFrequencySec := 604800 }
      false true failedUpdateState).settings = failedUpdateState.settings ∧
    (checkForUpdates { sampleUpdateEnv with
        currTime := 1800086400, updateCheckFrequencySec := 604800 }
      false true failedUpdateState).events = [.callback] :=
  (checkForUpdates_honors_settings
    { sampleUpdateEnv with currTime := 1800086400, updateCheckFrequencySec := 604800 }
    true failedUpdateState rfl (by decide) (by decide)).1 (by decide)

/-- C9 fails on the code: with the frequency at 0 (every launch) and a stored
`update/lastTimestamp` later than the current time, an automatic check with
Internet available is skipped: no request is sent, only the callback runs. -/
theorem every_launch_check_skipped_after_clock_set_back :
    sampleUpdateEnv.updateCheckFrequencySec = 0 ∧
    sampleUpdateEnv.internetConnected = true ∧
    (checkForUpdates sampleUpdateEnv false true futureStampState).events = [.callback] ∧
    (checkForUpdates sampleUpdateEnv false true futureStampState).settings
      = futureStampState.settings := by
  decide

/-! ## The branch taken on the release information -/

theorem compare_nonneg_iff (a b : QVersionNumber) :
    0 ≤ QVersionNumber.compare a b ↔ a = b ∨ List.Lex (fun x y => x < y) b a := by
  rw [← compare_eq_zero_iff, ← compare_pos_iff]
  omega

theorem lookup_remove_inGroup (q : QSettings) (g k : String) (h : inGroup g k = true) :
    (q.remove g).lookup k = none := by
  induction q with
  | nil => rfl
  | cons kv q ih =>
    obtain ⟨a, v⟩ := kv
    unfold QSettings.remove at ih ⊢
    by_cases hak : a = k
    · subst hak
      simpa [List.filter_cons, h] using ih
    · have hne : (k == a) = false := by
        simpa using fun hka : k = a => hak hka.symm
      cases hg : inGroup g a with
      | true => simpa [List.filter_cons, hg] using ih
      | false => simpa [List.filter_cons, hg, List.lookup_cons, hne] using ih

theorem value_remove_inGroup (q : QSettings) (g k : String) (h : inGroup g k = true) :
    (q.remove g).value k = QVariant.invalid := by
  simp [QSettings.value, lookup_remove_inGroup q g k h]

/-- Nothing was scheduled and the updater did not start the application. -/
theorem checkUpdateResults_idle (env : LaunchEnv) (q : QSettings)
    (hl : (q.value "update/launched").toBool = false)
    (ho : env.updateResultOption = none) :
    checkUpdateResults env q = (q, []) := by
  simp [checkUpdateResults, hl, ho]

/-- The running version is not lower than the saved one: the group goes. -/
theorem checkUpdateResults_updated (env : LaunchEnv) (q : QSettings)
    (hrun : (q.value "update/launched").toBool = true ∨ env.updateResultOption.isSome = true)
    (hge : 0 ≤ QVersionNumber.compare (env.fromString applicationVersion).normalized
      (env.fromString (q.value "update/version").toString).normalized) :
    (checkUpdateResults env q).1 = q.remove "update" := by
  have hguard : (!(q.value "update/launched").toBool && !env.updateResultOption.isSome)
      = false := by
    rcases hrun with h | h <;> simp [h]
  simp only [checkUpdateResults, hguard, Bool.false_eq_true, if_false, ge_iff_le, hge, if_true]
  split_ifs <;> rfl

/-- The running version is lower than the saved one: `update/failed` is set. -/
theorem checkUpdateResults_failed (env : LaunchEnv) (q : QSettings)
    (hrun : (q.value "update/launched").toBool = true ∨ env.updateResultOption.isSome = true)
    (hlt : QVersionNumber.compare (env.fromString applicationVersion).normalized
      (env.fromString (q.value "update/version").toString).normalized < 0) :
    (checkUpdateResults env q).1 = q.setValue "update/failed" (QVariant.ofBool true) := by
  have hguard : (!(q.value "update/launched").toBool && !env.updateResultOption.isSome)
      = false := by
    rcases hrun with h | h <;> simp [h]
  have hnot : ¬ 0 ≤ QVersionNumber.compare (env.fromString applicationVersion).normalized
      (env.fromString (q.value "update/version").toString).normalized := by omega
  simp only [checkUpdateResults, hguard, Bool.false_eq_true, if_false, ge_iff_le, hnot]

/-- With `update/failed` set and the saved version greater than the running one,
an automatic check that is answered with the saved version ends at the blocked
notice. -/
theorem automatic_check_blocked_for_saved (uenv : UpdateEnv) (cb : Bool) (s : AppState)
    (tag : String)
    (hnet : uenv.internetConnected = true)
    (hgo : skippedBySettings uenv s = false)
    (hreply : uenv.reply = .releaseInfo tag)
    (hnonempty : (stripLeadingV tag).isEmpty = false)
    (hfailed : (s.settings.value "update/failed").toBool = true)
    (hsaved : List.Lex (fun x y => x < y) (uenv.fromString applicationVersion).normalized
      (uenv.fromString (s.settings.value "update/version").toString).normalized)
    (heq : (uenv.fromString (stripLeadingV tag)).normalized =
      (uenv.fromString (s.settings.value "update/version").toString).normalized) :
    (checkForUpdates uenv false cb s).events =
      s.events ++ [ .setStatusMessage .checkingForUpdates,
        .networkGet (infoUrlOf s.settings),
        .setStatusMessage (.autoUpdateBlocked (stripLeadingV tag)) ]
        ++ callbackEvents cb := by
  have hgt : 0 < QVersionNumber.compare (uenv.fromString (stripLeadingV tag)).normalized
      (uenv.fromString applicationVersion).normalized := by
    rw [compare_pos_iff, heq]
    exact hsaved
  have hfailed1 : ((sendRequest uenv s).settings.value "update/failed").toBool = true := by
    rw [sendRequest_settings,
      value_setValue_ne s.settings "update/lastTimestamp" "update/failed" _ (by decide)]
    exact hfailed
  have hversion : (sendRequest uenv s).settings.value "update/version"
      = s.settings.value "update/version" := by
    rw [sendRequest_settings,
      value_setValue_ne s.settings "update/lastTimestamp" "update/version" _ (by decide)]
  rw [← hversion] at heq
  rw [checkForUpdates_request uenv false cb s hnet (Or.inr hgo),
    deliverReply_releaseInfo uenv false cb _ tag _ hreply,
    onFinishedNoError_blocked uenv false cb _ tag _ hnonempty hgt hfailed1 heq]
  simp only [Bool.false_eq_true, if_false, invokeCallback_events, AppState.emit,
    sendRequest_events, infoUrlOf_sendRequest, List.append_assoc, List.cons_append,
    List.nil_append]

/-- C11. `checkUpdateResults` changes nothing and shows nothing when
`update/launched` is not set and the option `updateResult` was not given.
Otherwise: if the normalised running version is equal to or greater than the
normalised saved `update/version`, the settings afterwards are the old ones
without the `update` group, so `update/launched`, `update/version` and
`update/failed` are cleared; if it is lower, `update/failed` is set to `true`
and every other setting is kept, and a later automatic check that finds the
saved version as the latest release ends at the blocked notice without running
the update dialog. -/
theorem checkUpdateResults_outcomes (env : LaunchEnv) (q : QSettings) :
    ((q.value "update/launched").toBool = false → env.updateResultOption = none →
      checkUpdateResults env q = (q, [])) ∧
    (((q.value "update/launched").toBool = true ∨ env.updateResultOption.isSome = true) →
      ((env.fromString applicationVersion).normalized
          = (env.fromString (q.value "update/version").toString).normalized ∨
        List.Lex (fun x y => x < y)
          (env.fromString (q.value "update/version").toString).normalized
          (env.fromString applicationVersion).normalized) →
      (checkUpdateResults env q).1 = q.remove "update" ∧
      (checkUpdateResults env q).1.group "update" = [] ∧
      (checkUpdateResults env q).1.value "update/launched" = QVariant.invalid ∧
      (checkUpdateResults env q).1.value "update/version" = QVariant.invalid ∧
      (checkUpdateResults env q).1.value "update/failed" = QVariant.invalid) ∧
    (((q.value "update/launched").toBool = true ∨ env.updateResultOption.isSome = true) →
      List.Lex (fun x y => x < y) (env.fromString applicationVersion).normalized
        (env.fromString (q.value "update/version").toString).normalized →
      (checkUpdateResults env q).1 = q.setValue "update/failed" (QVariant.ofBool true) ∧
      ((checkUpdateResults env q).1.value "update/failed").toBool = true ∧
      (∀ k, k ≠ "update/failed" → (checkUpdateResults env q).1.value k = q.value k) ∧
      (∀ (uenv : UpdateEnv) (cb : Bool) (evs : List Event) (tag : String),
        uenv.fromString = env.fromString →
        uenv.internetConnected = true →
        skippedBySettings uenv ⟨(checkUpdateResults env q).1, evs⟩ = false →
        uenv.reply = .releaseInfo tag →
        (stripLeadingV tag).isEmpty = false →
        (uenv.fromString (stripLeadingV tag)).normalized =
          (env.fromString (q.value "update/version").toString).normalized →
        (checkForUpdates uenv false cb ⟨(checkUpdateResults env q).1, evs⟩).events =
          evs ++ [ .setStatusMessage .checkingForUpdates,
            .networkGet (infoUrlOf (checkUpdateResults env q).1),
            .setStatusMessage (.autoUpdateBlocked (stripLeadingV tag)) ]
            ++ callbackEvents cb)) := by
  refine ⟨checkUpdateResults_idle env q, ?_, ?_⟩
  · intro hrun hge
    have h := checkUpdateResults_updated env q hrun ((compare_nonneg_iff _ _).2 hge)
    rw [h]
    exact ⟨rfl, group_remove q "update",
      value_remove_inGroup q "update" "update/launched" (by decide),
      value_remove_inGroup q "update" "update/version" (by decide),
      value_remove_inGroup q "update" "update/failed" (by decide)⟩
  · intro hrun hlt
    have h := checkUpdateResults_failed env q hrun ((compare_neg_iff _ _).2 hlt)
    rw [h]
    refine ⟨rfl, ?_, fun k hk => value_setValue_ne q "update/failed" k _ hk, ?_⟩
    · rw [value_setValue_self]
      rfl
    · intro uenv cb evs tag hparse hnet hgo hreply hnonempty heq
      have hversion : (q.setValue "update/failed" (QVariant.ofBool true)).value
          "update/version" = q.value "update/version" :=
        value_setValue_ne q "update/failed" "update/version" _ (by decide)
      refine automatic_check_blocked_for_saved uenv cb
        ⟨q.setValue "update/failed" (QVariant.ofBool true), evs⟩ tag hnet hgo hreply
        hnonempty ?_ ?_ ?_
      · simp only [value_setValue_self]
        rfl
      · simp only [hversion, hparse]
        exact hlt
      · rw [hparse] at heq
        simp only [hversion, hparse]
        exact heq

/-- C11 on its three cases: nothing scheduled; the update to `1.1.2` went
through; the update to `1.2.0` left the application at `1.1.2`. -/
theorem checkUpdateResults_outcomes_witness :
    checkUpdateResults { sampleLaunchEnv with updateResultOption := none }
        [("lastProject", QVariant.ofString "/home/user/game.project")]
      = ([("lastProject", QVariant.ofString "/home/user/game.project")], []) ∧
    (checkUpdateResults sampleLaunchEnv (launchedSettings "1.1.2")).1
      = (launchedSettings "1.1.2").remove "update" ∧
    (checkUpdateResults sampleLaunchEnv (launchedSettings "1.2.0")).1
      = (launchedSettings "1.2.0").setValue "update/failed" (QVariant.ofBool true) :=
  ⟨(checkUpdateResults_outcomes { sampleLaunchEnv with updateResultOption := none }
      [("lastProject", QVariant.ofString "/home/user/game.project")]).1
      (by decide) rfl,
   ((checkUpdateResults_outcomes sampleLaunchEnv (launchedSettings "1.1.2")).2.1
      (Or.inl (by decide)) (Or.inl (by decide))).1,
   ((checkUpdateResults_outcomes sampleLaunchEnv (launchedSettings "1.2.0")).2.2
      (Or.inl (by decide)) ((compare_neg_iff _ _).1 (by decide))).1⟩

end CEED
